import Mathlib

/-!
Stage profiler (`sapien/src/physx/physx_stage_profiler.cpp`).

A shallow embedding of the PhysX stage profiler: the zone classifier, the
token codec, the frame accumulator with its detached-zone tracker, and the
frame lifecycle.

Conventions of the embedding.
* `uint64_t` and `uintptr_t` values are natural numbers; every operation that
  can wrap is reduced modulo `2 ^ 64` (`uintptr_t` is taken to be 64 bits wide).
* A `char const *` is `Option (List Nat)`: `none` is the null pointer, and
  `some bs` is the string whose bytes, up to the terminating NUL, are `bs`.
* `nowNs()` reads an external clock; every operation that reads it takes the
  reading as an explicit argument.
* The mutex serialises the operations; the embedding is the sequential
  semantics of one operation at a time.
-/

namespace sapien.physx

/-! ## Machine words -/

/-- Number of values of a `uint64_t`. -/
def u64Size : Nat := 2 ^ 64

/-- Wrapping `uint64_t` addition. -/
def u64Add (a b : Nat) : Nat := (a + b) % u64Size

/-- Wrapping `uint64_t` subtraction, for operands below `2 ^ 64`. -/
def u64Sub (a b : Nat) : Nat := (a + u64Size - b % u64Size) % u64Size

/-! ## Stage buckets -/

/-- The enum `StageBucket`. -/
inductive StageBucket where
  | eBroadphase
  | eNarrowphase
  | eColoring
  | eSolver
  | eUpdate
  | eOther
  deriving DecidableEq, Repr

/-- The numeric value of an enumerator (`static_cast<uint64_t>(stage)`). -/
def StageBucket.toNat : StageBucket → Nat
  | .eBroadphase => 0
  | .eNarrowphase => 1
  | .eColoring => 2
  | .eSolver => 3
  | .eUpdate => 4
  | .eOther => 5

/-- The constant `kStageBucketCount`. -/
def kStageBucketCount : Nat := 6

/-- The constant `kPackedStageMask`. -/
def kPackedStageMask : Nat := 0x7

/-- The cast `static_cast<StageBucket>(stageValue)` for a value below
`kStageBucketCount`. -/
def StageBucket.ofValue : Nat → StageBucket
  | 0 => .eBroadphase
  | 1 => .eNarrowphase
  | 2 => .eColoring
  | 3 => .eSolver
  | 4 => .eUpdate
  | _ => .eOther

/-! ## Token codec -/

/-- The function `packProfilerData`: the token is the pointer's integer value. -/
def packProfilerData (startNs : Nat) (stage : StageBucket) : Nat :=
  let startWithOffset := (startNs + 1) % u64Size
  let packed := ((startWithOffset <<< 3) % u64Size) ||| stage.toNat
  packed

/-- The function `unpackProfilerData`: `none` is the `false` return, and
`some (startNs, stage)` is the `true` return with the two out-parameters. -/
def unpackProfilerData (profilerData : Nat) : Option (Nat × StageBucket) :=
  let packed := profilerData
  if packed = 0 then
    none
  else
    let stageValue := packed &&& kPackedStageMask
    let stage := if stageValue ≥ kStageBucketCount then StageBucket.eOther
      else StageBucket.ofValue stageValue
    let startNs := u64Sub (packed >>> 3) 1
    some (startNs, stage)

/-! ## Strings -/

/-- The bytes of an ASCII string literal of the source. -/
def ascii (s : String) : List Nat := s.toList.map Char.toNat

/-- The function `std::tolower` on an `unsigned char`, in the default "C"
locale: the letters `A`..`Z` go to `a`..`z`, every other byte is unchanged. -/
def tolower (c : Nat) : Nat := if 65 ≤ c ∧ c ≤ 90 then c + 32 else c

/-- The function `toLower`: the loop pushes the lower-cased bytes one by one. -/
def toLower (input : List Nat) : List Nat :=
  input.foldl (fun out c => out ++ [tolower c]) []

/-- Search of `needle` in `hay` from its head, `pos` being the offset of the
head in the whole string: the first position of a match, `none` for `npos`. -/
def findFrom (needle : List Nat) : List Nat → Nat → Option Nat
  | [], pos => if needle.isPrefixOf [] then some pos else none
  | c :: rest, pos =>
    if needle.isPrefixOf (c :: rest) then some pos else findFrom needle rest (pos + 1)

/-- The member `std::string::find(char const *)`: position of the first
occurrence, `none` for `std::string::npos`. -/
def find (hay needle : List Nat) : Option Nat := findFrom needle hay 0

/-- The function `std::to_string` on a `uint64_t`: its decimal digits. -/
def to_string (value : Nat) : List Nat := (Nat.toDigits 10 value).map Char.toNat

/-! ## Zone classifier -/

/-- The function `classifyZone`. -/
def classifyZone (eventName : Option (List Nat)) : StageBucket :=
  match eventName with
  | none => .eOther
  | some name =>
    if name.isEmpty then .eOther
    else
      let lower := toLower name
      if find lower (ascii "edge coloring") ≠ none ∨
          find lower (ascii "constraintpartition") ≠ none then .eColoring
      else if find lower (ascii "broadphase") ≠ none ∨
          find lower (ascii "broad phase") ≠ none then .eBroadphase
      else if find lower (ascii "narrowphase") ≠ none ∨
          find lower (ascii "narrow phase") ≠ none then .eNarrowphase
      else if find lower (ascii "solve") ≠ none ∨ find lower (ascii "solver") ≠ none ∨
          find lower (ascii "postsolver") ≠ none then .eSolver
      else if find lower (ascii "integrate") ≠ none ∨ find lower (ascii "update") ≠ none ∨
          find lower (ascii "kinematic") ≠ none then .eUpdate
      else .eOther

/-- The lower-cased name of the specification: every ASCII upper-case letter
replaced by its lower-case form. -/
def lowerCased (name : List Nat) : List Nat := name.map tolower

/-- The upper-cased name of the specification: every ASCII lower-case letter
replaced by its upper-case form, every other byte unchanged. -/
def uppercase (name : List Nat) : List Nat :=
  name.map (fun c => if 97 ≤ c ∧ c ≤ 122 then c - 32 else c)

/-- The six-rule priority classifier as the specification words it: the first
rule, in order, one of whose keywords is contained in the lower-cased name. -/
def classifyRef (name : Option (List Nat)) : StageBucket :=
  match name with
  | none => .eOther
  | some n =>
    if n = [] then .eOther
    else if ascii "edge coloring" <:+: lowerCased n ∨
        ascii "constraintpartition" <:+: lowerCased n then .eColoring
    else if ascii "broadphase" <:+: lowerCased n ∨
        ascii "broad phase" <:+: lowerCased n then .eBroadphase
    else if ascii "narrowphase" <:+: lowerCased n ∨
        ascii "narrow phase" <:+: lowerCased n then .eNarrowphase
    else if ascii "solve" <:+: lowerCased n ∨ ascii "solver" <:+: lowerCased n ∨
        ascii "postsolver" <:+: lowerCased n then .eSolver
    else if ascii "integrate" <:+: lowerCased n ∨ ascii "update" <:+: lowerCased n ∨
        ascii "kinematic" <:+: lowerCased n then .eUpdate
    else .eOther

/-! ## Hash maps keyed by strings -/

/-- The lookup `m.find(key)` of a `std::unordered_map<std::string, V>` held as
the list of its entries: the mapped value, `none` for `m.end()`. -/
def mapFind {V : Type} : List (List Nat × V) → List Nat → Option V
  | [], _ => none
  | (k, v) :: rest, key => if k = key then some v else mapFind rest key

/-- Assignment `m[key] = value`: the entry is overwritten when present and
inserted otherwise. -/
def mapSet {V : Type} : List (List Nat × V) → List Nat → V → List (List Nat × V)
  | [], key, value => [(key, value)]
  | (k, v) :: rest, key, value =>
    if k = key then (k, value) :: rest else (k, v) :: mapSet rest key value

/-- The removal `m.erase(it)` of the entry of `key`. -/
def mapErase {V : Type} : List (List Nat × V) → List Nat → List (List Nat × V)
  | [], _ => []
  | (k, v) :: rest, key =>
    if k = key then mapErase rest key else (k, v) :: mapErase rest key

/-! ## Frame metrics -/

/-- The index `static_cast<size_t>(stage)` into `stageNs`. -/
def StageBucket.index : StageBucket → Fin 6
  | .eBroadphase => 0
  | .eNarrowphase => 1
  | .eColoring => 2
  | .eSolver => 3
  | .eUpdate => 4
  | .eOther => 5

/-- The struct `FrameMetrics`: `stageNs` is the `std::array` of
`kStageBucketCount` totals, `zoneNs` the map from zone name to total. -/
structure FrameMetrics where
  stageNs : Mathlib.Vector Nat 6
  zoneNs : List (List Nat × Nat)
  deriving DecidableEq

/-- The value-initialised `FrameMetrics{}`. -/
def FrameMetrics.zero : FrameMetrics :=
  { stageNs := Mathlib.Vector.replicate 6 0, zoneNs := [] }

/-- The expression `eventName ? eventName : "<null>"`. -/
def nameOrNull (eventName : Option (List Nat)) : List Nat :=
  match eventName with
  | some name => name
  | none => ascii "<null>"

/-- The static member `detachedKey`. -/
def detachedKey (eventName : Option (List Nat)) (contextId : Nat) : List Nat :=
  let key := to_string contextId
  let key := key ++ ascii ":"
  key ++ nameOrNull eventName

/-- The member `accumulateLocked`, on the frame it writes (`mCurrentFrame`). -/
def accumulateLocked (frame : FrameMetrics) (stage : StageBucket)
    (eventName : Option (List Nat)) (durationNs : Nat) : FrameMetrics :=
  { stageNs := frame.stageNs.set stage.index (u64Add (frame.stageNs.get stage.index) durationNs)
    zoneNs := mapSet frame.zoneNs (nameOrNull eventName)
      (u64Add ((mapFind frame.zoneNs (nameOrNull eventName)).getD 0) durationNs) }

/-! ## The profiler -/

/-- The data members of `StageProfilerCallback`. -/
structure StageProfilerCallback where
  mEnabled : Bool
  mFrameActive : Bool
  mCurrentFrame : FrameMetrics
  mLastFrame : FrameMetrics
  mDetachedStartNs : List (List Nat × List Nat)
  deriving DecidableEq

/-- The profiler as constructed: both flags false, both frames zero, nothing
pending. -/
def StageProfilerCallback.init : StageProfilerCallback :=
  { mEnabled := false, mFrameActive := false, mCurrentFrame := FrameMetrics.zero,
    mLastFrame := FrameMetrics.zero, mDetachedStartNs := [] }

/-- The member `zoneStart`; `now` is the reading `nowNs()` would give. The
result is the new state and the returned pointer (`0` for `nullptr`). -/
def zoneStart (s : StageProfilerCallback) (eventName : Option (List Nat)) (detached : Bool)
    (contextId : Nat) (now : Nat) : StageProfilerCallback × Nat :=
  if !s.mEnabled || !s.mFrameActive then
    (s, 0)
  else
    let start := now
    if detached then
      let key := detachedKey eventName contextId
      ({ s with mDetachedStartNs :=
          mapSet s.mDetachedStartNs key ((mapFind s.mDetachedStartNs key).getD [] ++ [start]) }, 0)
    else
      (s, packProfilerData start (classifyZone eventName))

/-- The member `zoneEnd`; `now` is the reading `nowNs()` would give. -/
def zoneEnd (s : StageProfilerCallback) (profilerData : Nat) (eventName : Option (List Nat))
    (detached : Bool) (contextId : Nat) (now : Nat) : StageProfilerCallback :=
  if !s.mEnabled then
    s
  else if detached then
    let key := detachedKey eventName contextId
    match mapFind s.mDetachedStartNs key with
    | none => s
    | some stack =>
      if stack.isEmpty then s
      else
        let startNs := stack.getLastD 0
        let popped := stack.dropLast
        let pending := if popped.isEmpty then mapErase s.mDetachedStartNs key
          else mapSet s.mDetachedStartNs key popped
        if !s.mFrameActive then
          { s with mDetachedStartNs := pending }
        else
          { s with
            mDetachedStartNs := pending
            mCurrentFrame :=
              accumulateLocked s.mCurrentFrame (classifyZone eventName) eventName
                (u64Sub now startNs) }
  else
    match unpackProfilerData profilerData with
    | none => s
    | some (startNs, stage) =>
      if !s.mFrameActive then s
      else if !s.mFrameActive then s
      else { s with
        mCurrentFrame := accumulateLocked s.mCurrentFrame stage eventName (u64Sub now startNs) }

/-- The member `setEnabled`. -/
def setEnabled (s : StageProfilerCallback) (enabled : Bool) : StageProfilerCallback :=
  { s with mEnabled := enabled }

/-- The member `isEnabled`. -/
def isEnabled (s : StageProfilerCallback) : Bool := s.mEnabled

/-- The member `beginFrame`. -/
def beginFrame (s : StageProfilerCallback) : StageProfilerCallback :=
  { s with mCurrentFrame := FrameMetrics.zero, mDetachedStartNs := [], mFrameActive := true }

/-- The member `endFrame`. -/
def endFrame (s : StageProfilerCallback) : StageProfilerCallback :=
  { s with mFrameActive := false, mLastFrame := s.mCurrentFrame, mDetachedStartNs := [] }

/-- The local `totalNs` of `getLastFrameStageMs` after its loop over
`mLastFrame.stageNs`. -/
def totalNs (s : StageProfilerCallback) : Nat :=
  s.mLastFrame.stageNs.toList.foldl (fun total value => u64Add total value) 0

/-- The member `getLastFrameStageMs` before the scaling by `1e-6`: each key
with the nanosecond count whose conversion to `double` it is assigned. -/
def getLastFrameStageNs (s : StageProfilerCallback) : List (List Nat × Nat) :=
  [ (ascii "broadphase_ms", s.mLastFrame.stageNs.get StageBucket.eBroadphase.index),
    (ascii "narrowphase_ms", s.mLastFrame.stageNs.get StageBucket.eNarrowphase.index),
    (ascii "coloring_ms", s.mLastFrame.stageNs.get StageBucket.eColoring.index),
    (ascii "solver_ms", s.mLastFrame.stageNs.get StageBucket.eSolver.index),
    (ascii "update_ms", s.mLastFrame.stageNs.get StageBucket.eUpdate.index),
    (ascii "other_ms", s.mLastFrame.stageNs.get StageBucket.eOther.index),
    (ascii "total_ms", totalNs s) ]

/-- The member `getLastFrameZoneMs` before the scaling by `1e-6`: each zone
name with its nanosecond count. -/
def getLastFrameZoneNs (s : StageProfilerCallback) : List (List Nat × Nat) :=
  s.mLastFrame.zoneNs

/-! ## Sequential runs -/

/-- One call on the profiler, with its arguments and, where the clock is
read, the reading. -/
inductive Call where
  | setEnabled (enabled : Bool)
  | beginFrame
  | endFrame
  | zoneStart (eventName : Option (List Nat)) (detached : Bool) (contextId : Nat) (now : Nat)
  | zoneEnd (profilerData : Nat) (eventName : Option (List Nat)) (detached : Bool)
      (contextId : Nat) (now : Nat)
  deriving DecidableEq

/-- The state after one call. -/
def step (s : StageProfilerCallback) : Call → StageProfilerCallback
  | .setEnabled enabled => setEnabled s enabled
  | .beginFrame => beginFrame s
  | .endFrame => endFrame s
  | .zoneStart eventName detached contextId now =>
    (zoneStart s eventName detached contextId now).1
  | .zoneEnd profilerData eventName detached contextId now =>
    zoneEnd s profilerData eventName detached contextId now

/-- The state after a sequence of calls. -/
def run (s : StageProfilerCallback) (calls : List Call) : StageProfilerCallback :=
  calls.foldl step s

/-- States the profiler can be in: those a sequence of calls leads to from
the constructed profiler. -/
def Reachable (s : StageProfilerCallback) : Prop :=
  ∃ calls : List Call, run StageProfilerCallback.init calls = s

/-! ## Scenarios -/

/-- The run `setEnabled(true); beginFrame(); tok = zoneStart(name, false,
contextId); zoneEnd(tok, name, false, contextId); endFrame()` on the
constructed profiler, the clock reading `t0` in `zoneStart` and `t1` in
`zoneEnd`. -/
def singleZoneRun (eventName : Option (List Nat)) (contextId t0 t1 : Nat) :
    StageProfilerCallback :=
  let s := beginFrame (setEnabled StageProfilerCallback.init true)
  let started := zoneStart s eventName false contextId t0
  endFrame (zoneEnd started.1 started.2 eventName false contextId t1)

/-- The six stage totals of a frame added as integers, without wrapping. -/
def stageSum (frame : FrameMetrics) : Nat :=
  frame.stageNs.get StageBucket.eBroadphase.index +
    frame.stageNs.get StageBucket.eNarrowphase.index +
    frame.stageNs.get StageBucket.eColoring.index +
    frame.stageNs.get StageBucket.eSolver.index +
    frame.stageNs.get StageBucket.eUpdate.index +
    frame.stageNs.get StageBucket.eOther.index

/-- A frame with two overlapping non-detached zones, "Broadphase" and
"Solver", both started at clock reading `0` and both ended at `2 ^ 63`, each
ended with the token its start returned. -/
def longFrameCalls : List Call :=
  [ .setEnabled true, .beginFrame,
    .zoneStart (some (ascii "Broadphase")) false 0 0,
    .zoneStart (some (ascii "Solver")) false 0 0,
    .zoneEnd (packProfilerData 0 (classifyZone (some (ascii "Broadphase"))))
      (some (ascii "Broadphase")) false 0 (2 ^ 63),
    .zoneEnd (packProfilerData 0 (classifyZone (some (ascii "Solver"))))
      (some (ascii "Solver")) false 0 (2 ^ 63),
    .endFrame ]

/-- Whether a call is a detached `zoneStart` whose correlation key is `key`. -/
def Call.startsDetached (key : List Nat) : Call → Bool
  | .zoneStart eventName true contextId _ => decide (detachedKey eventName contextId = key)
  | _ => false

/-- A run from `s` in which a detached `zoneStart(eventName, true, contextId)`
at clock reading `t0` is followed by the calls `before`, then `endFrame`, then
the calls `after`. -/
def crossFrameRun (s : StageProfilerCallback) (eventName : Option (List Nat))
    (contextId t0 : Nat) (before after : List Call) : StageProfilerCallback :=
  run s (Call.zoneStart eventName true contextId t0 :: (before ++ Call.endFrame :: after))

/-- Two detached `zoneStart(eventName, true, contextId)` calls from `s`, at
clock readings `t0` and `t1`. -/
def detachedStarts (s : StageProfilerCallback) (eventName : Option (List Nat))
    (contextId t0 t1 : Nat) : StageProfilerCallback :=
  (zoneStart (zoneStart s eventName true contextId t0).1 eventName true contextId t1).1

/-- The two detached starts followed by one detached
`zoneEnd(p, eventName, true, contextId)` at clock reading `t2`. -/
def detachedFirstEnd (s : StageProfilerCallback) (eventName : Option (List Nat))
    (contextId t0 t1 t2 p : Nat) : StageProfilerCallback :=
  zoneEnd (detachedStarts s eventName contextId t0 t1) p eventName true contextId t2

/-- The two detached starts followed by two detached ends, at clock readings
`t2` and `t3`, carrying the pointers `p` and `q`. -/
def detachedSecondEnd (s : StageProfilerCallback) (eventName : Option (List Nat))
    (contextId t0 t1 t2 t3 p q : Nat) : StageProfilerCallback :=
  zoneEnd (detachedFirstEnd s eventName contextId t0 t1 t2 p) q eventName true contextId t3

/-- A non-detached `zoneStart(eventName, false, contextId)` from `s` at clock
reading `t0`, then `zoneEnd` with the returned token at clock reading `t1`. -/
def tokenFirstEnd (s : StageProfilerCallback) (eventName : Option (List Nat))
    (contextId t0 t1 : Nat) : StageProfilerCallback :=
  let started := zoneStart s eventName false contextId t0
  zoneEnd started.1 started.2 eventName false contextId t1

/-- An enabled profiler inside a frame with one detached start of "Async
Solve" on context 42 pending, pushed at clock reading 5. -/
def onePending : StageProfilerCallback :=
  (zoneStart (beginFrame (setEnabled StageProfilerCallback.init true))
    (some (ascii "Async Solve")) true 42 5).1

/-- An enabled profiler inside a frame, nothing recorded yet. -/
def inFrame : StageProfilerCallback :=
  beginFrame (setEnabled StageProfilerCallback.init true)

/-- An enabled profiler with no frame begun. -/
def enabledNoFrame : StageProfilerCallback :=
  setEnabled StageProfilerCallback.init true

/-- The profiler disabled in the middle of a frame, one detached start of
"Async Solve" on context 42 still pending. -/
def disabledMidFrame : StageProfilerCallback :=
  setEnabled onePending false

/-- A detached zone from `s`: `zoneStart(eventName, true, contextId)` at clock
reading `t0`, then `zoneEnd(p, eventName, true, contextId)` at `t1`. -/
def detachedZone (s : StageProfilerCallback) (eventName : Option (List Nat))
    (contextId t0 t1 p : Nat) : StageProfilerCallback :=
  zoneEnd (zoneStart s eventName true contextId t0).1 p eventName true contextId t1

/-- The calls of `accumulateLocked` for a list of accumulations
`(stage, eventName, durationNs)`, made in the order of the list. -/
def accumulateAll (frame : FrameMetrics)
    (items : List (StageBucket × Option (List Nat) × Nat)) : FrameMetrics :=
  items.foldl (fun f item => accumulateLocked f item.1 item.2.1 item.2.2) frame

/-- Two entry lists hold the same map: every key is mapped alike. -/
def SameMap (m₁ m₂ : List (List Nat × Nat)) : Prop :=
  ∀ key : List Nat, mapFind m₁ key = mapFind m₂ key

/-- The values of all entries of `zoneNs` added as integers. -/
def zoneSum (frame : FrameMetrics) : Nat :=
  (frame.zoneNs.map (fun entry => entry.2)).sum

/-- The stage totals and the zone totals of a frame agree modulo `2 ^ 64`. -/
def TotalsAgree (frame : FrameMetrics) : Prop :=
  stageSum frame % u64Size = zoneSum frame % u64Size

/-! ### Arithmetic form of the codec -/

theorem StageBucket.toNat_lt (stage : StageBucket) : stage.toNat < 6 := by
  cases stage <;> decide

theorem StageBucket.ofValue_toNat (stage : StageBucket) :
    StageBucket.ofValue stage.toNat = stage := by
  cases stage <;> rfl

theorem StageBucket.toNat_eq_zero_iff (stage : StageBucket) :
    stage.toNat = 0 ↔ stage = .eBroadphase := by
  cases stage <;> simp [StageBucket.toNat]

/-- The packed word as a sum: the low three bits hold the stage, the rest the
offset start truncated to 61 bits. -/
theorem packProfilerData_eq (startNs : Nat) (stage : StageBucket) :
    packProfilerData startNs stage = 8 * ((startNs + 1) % 2 ^ 61) + stage.toNat := by
  have hs : stage.toNat < 2 ^ 3 := by have := stage.toNat_lt; omega
  have h := Nat.mul_add_lt_is_or hs ((startNs + 1) % 2 ^ 61)
  have h8 : ((startNs + 1) % u64Size) <<< 3 % u64Size = 2 ^ 3 * ((startNs + 1) % 2 ^ 61) := by
    rw [Nat.shiftLeft_eq]
    simp only [u64Size]
    omega
  simp only [packProfilerData]
  rw [h8, ← h]

theorem stageBits_eq (a : Nat) (stage : StageBucket) :
    (8 * a + stage.toNat) &&& kPackedStageMask = stage.toNat := by
  have h := Nat.and_pow_two_sub_one_eq_mod (8 * a + stage.toNat) 3
  have hs := stage.toNat_lt
  have h7 : kPackedStageMask = 2 ^ 3 - 1 := by decide
  rw [h7, h]
  omega

theorem startBits_eq (a : Nat) (stage : StageBucket) :
    (8 * a + stage.toNat) >>> 3 = a := by
  have hs := stage.toNat_lt
  rw [Nat.shiftRight_eq_div_pow]
  omega

/-- Decoding an encoded token, computed in closed form. -/
theorem unpack_pack_eq (startNs : Nat) (stage : StageBucket) :
    unpackProfilerData (packProfilerData startNs stage) =
      if (startNs + 1) % 2 ^ 61 = 0 ∧ stage = .eBroadphase then none
      else some (u64Sub ((startNs + 1) % 2 ^ 61) 1, stage) := by
  have hs := stage.toNat_lt
  have hz := stage.toNat_eq_zero_iff
  rw [packProfilerData_eq]
  unfold unpackProfilerData
  simp only [stageBits_eq, startBits_eq, kStageBucketCount, ge_iff_le,
    StageBucket.ofValue_toNat]
  by_cases h0 : 8 * ((startNs + 1) % 2 ^ 61) + stage.toNat = 0
  · have h1 : (startNs + 1) % 2 ^ 61 = 0 := by omega
    have h2 : stage = .eBroadphase := hz.mp (by omega)
    rw [if_pos h0, if_pos ⟨h1, h2⟩]
  · have h3 : ¬ ((startNs + 1) % 2 ^ 61 = 0 ∧ stage = .eBroadphase) := by
      rintro ⟨h1, h2⟩
      have h5 := hz.mpr h2
      omega
    have h4 : ¬ (6 ≤ stage.toNat) := by omega
    rw [if_neg h0, if_neg h3, if_neg h4]

end sapien.physx

namespace sapien.physx

/-! ### Token codec: claims -/

/-- C1 (counterexample): the start `2 ^ 61 - 1` is a `uint64_t`, and its
token with the Broadphase stage is the empty token, which decodes to
"empty"; the start `2 ^ 61` with the Solver stage decodes to the start `0`. -/
theorem roundtrip_fails_at_61_bits :
    2 ^ 61 - 1 < u64Size ∧
      unpackProfilerData (packProfilerData (2 ^ 61 - 1) .eBroadphase) = none ∧
      unpackProfilerData (packProfilerData (2 ^ 61) .eSolver) = some (0, .eSolver) := by
  decide

/-- C1 (amended): for a 64-bit start, decoding the encoded token reports
"present" with exactly the original start and stage if and only if
`startNs + 1 < 2 ^ 61`, the all-ones start with a stage other than
Broadphase being the one exception above that range. In every case the
decoding is "empty" when the stage is Broadphase and `startNs + 1` is a
multiple of `2 ^ 61`, and otherwise "present" with the original stage and the
start `((startNs + 1) mod 2 ^ 61) - 1` modulo `2 ^ 64`: a smaller start than
the original when `2 ^ 61 ≤ startNs + 1` is no multiple of `2 ^ 61`, and the
start `2 ^ 64 - 1` when it is one. -/
theorem unpack_pack_roundtrip_iff (startNs : Nat) (stage : StageBucket)
    (hrep : startNs < u64Size) :
    (unpackProfilerData (packProfilerData startNs stage) = some (startNs, stage) ↔
        (startNs + 1 < 2 ^ 61 ∨ (startNs = 2 ^ 64 - 1 ∧ stage ≠ .eBroadphase))) ∧
      (unpackProfilerData (packProfilerData startNs stage) =
        if (startNs + 1) % 2 ^ 61 = 0 ∧ stage = .eBroadphase then none
        else some (((startNs + 1) % 2 ^ 61 + 2 ^ 64 - 1) % 2 ^ 64, stage)) ∧
      (2 ^ 61 ≤ startNs + 1 → (startNs + 1) % 2 ^ 61 ≠ 0 →
        unpackProfilerData (packProfilerData startNs stage) =
            some ((startNs + 1) % 2 ^ 61 - 1, stage) ∧
          (startNs + 1) % 2 ^ 61 - 1 < startNs) ∧
      ((startNs + 1) % 2 ^ 61 = 0 → stage ≠ .eBroadphase →
        unpackProfilerData (packProfilerData startNs stage) = some (2 ^ 64 - 1, stage)) ∧
      ((startNs + 1) % 2 ^ 61 = 0 → stage = .eBroadphase →
        unpackProfilerData (packProfilerData startNs stage) = none) := by
  rw [unpack_pack_eq]
  simp only [u64Size] at hrep
  refine ⟨?_, ?_, ?_, ?_, ?_⟩
  · by_cases h0 : (startNs + 1) % 2 ^ 61 = 0
    · by_cases hb : stage = .eBroadphase
      · rw [if_pos ⟨h0, hb⟩]
        constructor
        · intro h; cases h
        · rintro (h | ⟨_, h⟩)
          · omega
          · exact absurd hb h
      · rw [if_neg (fun h => hb h.2)]
        simp only [Option.some.injEq, Prod.mk.injEq, and_true, u64Sub, u64Size]
        constructor
        · intro h; right; exact ⟨by omega, hb⟩
        · rintro (h | ⟨h, _⟩) <;> omega
    · rw [if_neg (fun h => h0 h.1)]
      simp only [Option.some.injEq, Prod.mk.injEq, and_true, u64Sub, u64Size]
      constructor
      · intro h; left; omega
      · rintro (h | ⟨h, _⟩) <;> omega
  · by_cases hc : (startNs + 1) % 2 ^ 61 = 0 ∧ stage = .eBroadphase
    · rw [if_pos hc, if_pos hc]
    · rw [if_neg hc, if_neg hc]
      simp only [u64Sub, u64Size, Option.some.injEq, Prod.mk.injEq, and_true]
      omega
  · intro hge hne
    rw [if_neg (fun h => hne h.1)]
    simp only [u64Sub, u64Size, Option.some.injEq, Prod.mk.injEq, and_true]
    omega
  · intro hz hb
    rw [if_neg (fun h => hb h.2)]
    simp only [u64Sub, u64Size, Option.some.injEq, Prod.mk.injEq, and_true]
    omega
  · intro hz hb
    rw [if_pos ⟨hz, hb⟩]

/-- C1 (witness): the start `2 ^ 61 - 1`, a 64-bit value with `startNs + 1`
a multiple of `2 ^ 61`, and the stage Other: the token decodes to the start
`2 ^ 64 - 1`, not to the original. -/
theorem unpack_pack_roundtrip_iff_witness :
    (2 ^ 61 - 1 < u64Size ∧ (2 ^ 61 - 1 + 1) % 2 ^ 61 = 0 ∧
        StageBucket.eOther ≠ StageBucket.eBroadphase) ∧
      unpackProfilerData (packProfilerData (2 ^ 61 - 1) .eOther) =
        some (2 ^ 64 - 1, .eOther) :=
  ⟨by decide,
    (unpack_pack_roundtrip_iff (2 ^ 61 - 1) .eOther (by decide)).2.2.2.1 (by decide)
      (by decide)⟩

/-- C2 (counterexample): the starts `2 ^ 61 - 1` and `2 ^ 64 - 1` are 64-bit
values whose token with the Broadphase stage is the empty token `0`. -/
theorem pack_zero_token :
    2 ^ 61 - 1 < u64Size ∧ packProfilerData (2 ^ 61 - 1) .eBroadphase = 0 ∧
      2 ^ 64 - 1 < u64Size ∧ packProfilerData (2 ^ 64 - 1) .eBroadphase = 0 := by
  decide

/-- C2 (amended): the token `0` decodes to "empty"; an encoded token is `0`
exactly when the stage is Broadphase and `startNs + 1` is a multiple of
`2 ^ 61`; so it is never `0` when `startNs + 1 < 2 ^ 61`. -/
theorem pack_eq_zero_iff (startNs : Nat) (stage : StageBucket) :
    unpackProfilerData 0 = none ∧
      (packProfilerData startNs stage = 0 ↔
        (stage = .eBroadphase ∧ (startNs + 1) % 2 ^ 61 = 0)) ∧
      (startNs + 1 < 2 ^ 61 → packProfilerData startNs stage ≠ 0) := by
  have hz := stage.toNat_eq_zero_iff
  have hs := stage.toNat_lt
  refine ⟨rfl, ?_, ?_⟩
  · rw [packProfilerData_eq]
    constructor
    · intro h
      exact ⟨hz.mp (by omega), by omega⟩
    · rintro ⟨h1, h2⟩
      have := hz.mpr h1
      omega
  · intro h
    rw [packProfilerData_eq]
    omega

/-- C2 (witness): the start `0` with the Broadphase stage. -/
theorem pack_eq_zero_iff_witness :
    0 + 1 < 2 ^ 61 ∧ packProfilerData 0 .eBroadphase ≠ 0 :=
  ⟨by decide, (pack_eq_zero_iff 0 .eBroadphase).2.2 (by decide)⟩

end sapien.physx

namespace sapien.physx

/-! ### Zone classifier: lemmas -/

theorem toLower_loop (acc input : List Nat) :
    input.foldl (fun out c => out ++ [tolower c]) acc = acc ++ input.map tolower := by
  induction input generalizing acc with
  | nil => simp
  | cons c rest ih => simp [ih]

theorem toLower_eq_lowerCased (input : List Nat) : toLower input = lowerCased input := by
  simp [toLower, lowerCased, toLower_loop]

theorem findFrom_ne_none_iff (needle hay : List Nat) (pos : Nat) :
    findFrom needle hay pos ≠ none ↔ needle <:+: hay := by
  induction hay generalizing pos with
  | nil =>
    cases needle <;> simp [findFrom]
  | cons c rest ih =>
    rw [findFrom, List.infix_cons_iff]
    by_cases hp : needle.isPrefixOf (c :: rest) = true
    · have hp2 := List.isPrefixOf_iff_prefix.mp hp
      simp [hp, hp2]
    · have hp2 : ¬ needle <+: c :: rest := fun h => hp (List.isPrefixOf_iff_prefix.mpr h)
      rw [if_neg hp, ih]
      simp [hp2]

/-- The search `lower.find(kw) != npos` succeeds exactly when `kw` occurs in
`lower` as a run of consecutive bytes. -/
theorem find_ne_none_iff (hay needle : List Nat) : find hay needle ≠ none ↔ needle <:+: hay :=
  findFrom_ne_none_iff needle hay 0

theorem tolower_upper (c : Nat) :
    tolower (if 97 ≤ c ∧ c ≤ 122 then c - 32 else c) = tolower c := by
  unfold tolower
  split_ifs <;> omega

theorem lowerCased_uppercase (name : List Nat) :
    lowerCased (uppercase name) = lowerCased name := by
  simp [lowerCased, uppercase, List.map_map, Function.comp_def, tolower_upper]

theorem classifyZone_some (name : List Nat) :
    classifyZone (some name) = classifyRef (some name) := by
  simp only [classifyZone, classifyRef, find_ne_none_iff, toLower_eq_lowerCased,
    List.isEmpty_iff]

/-! ### Zone classifier: claims -/

/-- C3: `classifyZone` equals the six-rule priority classifier of the
specification on every name; a null or empty name gives Other; and a name
whose lower-cased form contains a Coloring keyword is Coloring whatever else it
contains, as for "ConstraintPartition Build" and "ConstraintPartition Update". -/
theorem classifyZone_eq_classifyRef :
    (∀ name : Option (List Nat), classifyZone name = classifyRef name) ∧
      classifyZone none = .eOther ∧ classifyZone (some []) = .eOther ∧
      (∀ name : List Nat,
        (ascii "edge coloring" <:+: lowerCased name ∨
          ascii "constraintpartition" <:+: lowerCased name) →
        classifyZone (some name) = .eColoring) ∧
      classifyZone (some (ascii "ConstraintPartition Build")) = .eColoring ∧
      classifyZone (some (ascii "ConstraintPartition Update")) = .eColoring := by
  refine ⟨?_, rfl, rfl, ?_, by decide, by decide⟩
  · intro name
    cases name with
    | none => rfl
    | some name => exact classifyZone_some name
  · intro name h
    have hne : name ≠ [] := by
      rintro rfl
      rcases h with h | h <;> simp [lowerCased, ascii] at h
    rw [classifyZone_some]
    simp only [classifyRef, if_neg hne, if_pos h]

/-- C3 (witness): a name with a Coloring keyword and keywords of three other
stages is Coloring. -/
theorem classifyZone_eq_classifyRef_witness :
    (ascii "edge coloring" <:+: lowerCased (ascii "Broadphase Solver Update ConstraintPartition") ∨
      ascii "constraintpartition" <:+:
        lowerCased (ascii "Broadphase Solver Update ConstraintPartition")) ∧
      classifyZone (some (ascii "Broadphase Solver Update ConstraintPartition")) = .eColoring :=
  ⟨by decide, classifyZone_eq_classifyRef.2.2.2.1 _ (by decide)⟩

/-- C4: `classifyZone` is case-insensitive: a name and its upper-cased form
(null staying null) are classified alike. -/
theorem classifyZone_uppercase (name : Option (List Nat)) :
    classifyZone (name.map uppercase) = classifyZone name := by
  cases name with
  | none => rfl
  | some name =>
    simp only [Option.map_some']
    rw [classifyZone_some, classifyZone_some]
    have he : uppercase name = [] ↔ name = [] := by simp [uppercase]
    simp only [classifyRef, lowerCased_uppercase, he]

end sapien.physx

namespace sapien.physx

/-! ### Accumulation: lemmas -/

theorem u64Sub_of_le {a b : Nat} (hba : b ≤ a) (ha : a < u64Size) : u64Sub a b = a - b := by
  simp only [u64Sub, u64Size] at *
  omega

theorem u64Add_zero_left {d : Nat} (hd : d < u64Size) : u64Add 0 d = d := by
  simp only [u64Add, u64Size] at *
  omega

theorem StageBucket.index_ne {a b : StageBucket} (h : a ≠ b) : a.index ≠ b.index := by
  cases a <;> cases b <;> first | exact absurd rfl h | decide

/-- Decoding the token of a start in the 61-bit range gives the start back. -/
theorem unpack_pack_of_lt (startNs : Nat) (stage : StageBucket) (h : startNs + 1 < 2 ^ 61) :
    unpackProfilerData (packProfilerData startNs stage) = some (startNs, stage) := by
  rw [unpack_pack_eq]
  have h0 : ¬ ((startNs + 1) % 2 ^ 61 = 0 ∧ stage = .eBroadphase) := by
    rintro ⟨h1, _⟩
    omega
  rw [if_neg h0]
  simp only [u64Sub, u64Size, Option.some.injEq, Prod.mk.injEq, and_true]
  omega

theorem accumulateLocked_stage_same (frame : FrameMetrics) (stage : StageBucket)
    (eventName : Option (List Nat)) (durationNs : Nat) :
    (accumulateLocked frame stage eventName durationNs).stageNs.get stage.index =
      u64Add (frame.stageNs.get stage.index) durationNs := by
  simp [accumulateLocked, Mathlib.Vector.get_set_same]

theorem accumulateLocked_stage_other (frame : FrameMetrics) {stage other : StageBucket}
    (h : other ≠ stage) (eventName : Option (List Nat)) (durationNs : Nat) :
    (accumulateLocked frame stage eventName durationNs).stageNs.get other.index =
      frame.stageNs.get other.index := by
  simp only [accumulateLocked]
  exact Mathlib.Vector.get_set_of_ne (StageBucket.index_ne (Ne.symm h)) _

theorem zero_stage (i : Fin 6) : FrameMetrics.zero.stageNs.get i = 0 := by
  simp only [FrameMetrics.zero]
  exact Mathlib.Vector.get_replicate 0 i

/-- The state the single-zone run ends in, when the start is in the 61-bit
range of the token. -/
theorem singleZoneRun_lastFrame (eventName : Option (List Nat)) (contextId t0 t1 : Nat)
    (h0 : t0 + 1 < 2 ^ 61) :
    (singleZoneRun eventName contextId t0 t1).mLastFrame =
      accumulateLocked FrameMetrics.zero (classifyZone eventName) eventName (u64Sub t1 t0) := by
  simp [singleZoneRun, zoneStart, zoneEnd, endFrame, beginFrame, setEnabled,
    StageProfilerCallback.init, unpack_pack_of_lt _ _ h0]

/-! ### Single zone: claim -/

/-- C5: a single non-detached zone with a non-null name, started at clock
reading `t0` and ended at `t1`, `t0 ≤ t1`, `t0 + 1 < 2 ^ 61`, both 64-bit
values, in a frame of a freshly enabled profiler: after `endFrame` the last
frame has `t1 - t0` in the stage of the name, `0` in the five other stages,
and the zone map with the single entry of the name, with `t1 - t0`. -/
theorem single_zone_last_frame (name : List Nat) (contextId t0 t1 : Nat)
    (h01 : t0 ≤ t1) (h0 : t0 + 1 < 2 ^ 61) (h1 : t1 < u64Size) :
    (singleZoneRun (some name) contextId t0 t1).mLastFrame.stageNs.get
        (classifyZone (some name)).index = t1 - t0 ∧
      (∀ stage : StageBucket, stage ≠ classifyZone (some name) →
        (singleZoneRun (some name) contextId t0 t1).mLastFrame.stageNs.get stage.index = 0) ∧
      (singleZoneRun (some name) contextId t0 t1).mLastFrame.zoneNs = [(name, t1 - t0)] := by
  have hd : u64Sub t1 t0 = t1 - t0 := u64Sub_of_le h01 h1
  have hlt : t1 - t0 < u64Size := by omega
  rw [singleZoneRun_lastFrame _ _ _ _ h0, hd]
  refine ⟨?_, ?_, ?_⟩
  · rw [accumulateLocked_stage_same, zero_stage, u64Add_zero_left hlt]
  · intro stage hne
    rw [accumulateLocked_stage_other _ hne, zero_stage]
  · simp [accumulateLocked, FrameMetrics.zero, mapSet, mapFind, nameOrNull,
      u64Add_zero_left hlt]

/-- C5 (witness): the zone "Broadphase Update" over two milliseconds puts
2000000 ns in Broadphase, nothing in the other stages, and one zone entry. -/
theorem single_zone_last_frame_witness :
    (1000 ≤ 2001000 ∧ 1000 + 1 < 2 ^ 61 ∧ 2001000 < u64Size) ∧
      ((singleZoneRun (some (ascii "Broadphase Update")) 0 1000 2001000).mLastFrame.stageNs.get
          (classifyZone (some (ascii "Broadphase Update"))).index = 2001000 - 1000 ∧
        (∀ stage : StageBucket, stage ≠ classifyZone (some (ascii "Broadphase Update")) →
          (singleZoneRun (some (ascii "Broadphase Update")) 0 1000 2001000).mLastFrame.stageNs.get
            stage.index = 0) ∧
        (singleZoneRun (some (ascii "Broadphase Update")) 0 1000 2001000).mLastFrame.zoneNs =
          [(ascii "Broadphase Update", 2001000 - 1000)]) :=
  ⟨by decide, single_zone_last_frame (ascii "Broadphase Update") 0 1000 2001000
    (by decide) (by decide) (by decide)⟩

end sapien.physx

namespace sapien.physx

/-! ### Stage totals: claim -/

theorem stageNs_entries (v : Mathlib.Vector Nat 6) :
    v.toList = [v.get 0, v.get 1, v.get 2, v.get 3, v.get 4, v.get 5] := by
  obtain ⟨l, hl⟩ := v
  match l, hl with
  | [a, b, c, d, e, f], _ => rfl

/-- C6 (counterexample): the frame of `longFrameCalls` ends in a reachable
state whose Broadphase and Solver totals are `2 ^ 63` each; the getter's
64-bit `totalNs` is `0`, the integer sum of the six totals is `2 ^ 64`. -/
theorem totalNs_wraps :
    Reachable (run StageProfilerCallback.init longFrameCalls) ∧
      totalNs (run StageProfilerCallback.init longFrameCalls) = 0 ∧
      stageSum (run StageProfilerCallback.init longFrameCalls).mLastFrame = 2 ^ 64 ∧
      totalNs (run StageProfilerCallback.init longFrameCalls) ≠
        stageSum (run StageProfilerCallback.init longFrameCalls).mLastFrame :=
  ⟨⟨longFrameCalls, rfl⟩, by decide, by decide, by decide⟩

/-- C6 (amended): in every state, reachable ones among them, the getter's
64-bit `totalNs` is the integer sum of the six stage totals of the last
frame modulo `2 ^ 64`, and it is that sum itself when the sum is below
`2 ^ 64`; it is the value the getter reports under "total_ms". -/
theorem totalNs_eq_stageSum_mod (s : StageProfilerCallback) :
    totalNs s = stageSum s.mLastFrame % u64Size ∧
      (stageSum s.mLastFrame < u64Size → totalNs s = stageSum s.mLastFrame) ∧
      mapFind (getLastFrameStageNs s) (ascii "total_ms") = some (totalNs s) := by
  have key : totalNs s = stageSum s.mLastFrame % u64Size := by
    simp only [totalNs, stageSum, stageNs_entries, List.foldl_cons, List.foldl_nil, u64Add,
      u64Size, StageBucket.index]
    omega
  refine ⟨key, ?_, rfl⟩
  intro h
  rw [key, Nat.mod_eq_of_lt h]

/-- C6 (witness): the single-zone frame of "Broadphase Update" over two
milliseconds has the total 2000000 ns. -/
theorem totalNs_eq_stageSum_mod_witness :
    stageSum (singleZoneRun (some (ascii "Broadphase Update")) 0 1000 2001000).mLastFrame <
        u64Size ∧
      totalNs (singleZoneRun (some (ascii "Broadphase Update")) 0 1000 2001000) =
        stageSum (singleZoneRun (some (ascii "Broadphase Update")) 0 1000 2001000).mLastFrame :=
  ⟨by decide, (totalNs_eq_stageSum_mod _).2.1 (by decide)⟩

end sapien.physx

namespace sapien.physx

/-! ### String maps: lemmas -/

theorem mapFind_mapSet_same {V : Type} (m : List (List Nat × V)) (key : List Nat) (v : V) :
    mapFind (mapSet m key v) key = some v := by
  induction m with
  | nil => simp [mapSet, mapFind]
  | cons e rest ih =>
    obtain ⟨k, w⟩ := e
    by_cases h : k = key
    · simp [mapSet, mapFind, h]
    · simp [mapSet, mapFind, h, ih]

theorem mapFind_mapSet_other {V : Type} (m : List (List Nat × V)) {key other : List Nat}
    (hne : key ≠ other) (v : V) : mapFind (mapSet m key v) other = mapFind m other := by
  induction m with
  | nil => simp [mapSet, mapFind, hne]
  | cons e rest ih =>
    obtain ⟨k, w⟩ := e
    by_cases h : k = key
    · subst h
      simp [mapSet, mapFind, hne]
    · by_cases h2 : k = other
      · subst h2
        simp [mapSet, mapFind, h]
      · simp [mapSet, mapFind, h, h2, ih]

theorem mapFind_mapErase {V : Type} (m : List (List Nat × V)) (key other : List Nat) :
    mapFind (mapErase m key) other = if key = other then none else mapFind m other := by
  induction m with
  | nil => simp [mapErase, mapFind]
  | cons e rest ih =>
    obtain ⟨k, w⟩ := e
    by_cases h : k = key
    · subst h
      by_cases h2 : k = other
      · subst h2
        simpa [mapErase] using ih
      · simp [mapErase, mapFind, h2, ih]
    · by_cases h2 : k = other
      · subst h2
        simp [mapErase, mapFind, h, Ne.symm h]
      · simp [mapErase, mapFind, h, h2, ih]

theorem mapSet_mapSet {V : Type} (m : List (List Nat × V)) (key : List Nat) (v w : V) :
    mapSet (mapSet m key v) key w = mapSet m key w := by
  induction m with
  | nil => simp [mapSet]
  | cons e rest ih =>
    obtain ⟨k, u⟩ := e
    by_cases h : k = key
    · simp [mapSet, h]
    · simp [mapSet, h, ih]

theorem mapSet_of_mapFind {V : Type} (m : List (List Nat × V)) (key : List Nat) (v : V)
    (h : mapFind m key = some v) : mapSet m key v = m := by
  induction m with
  | nil => simp [mapFind] at h
  | cons e rest ih =>
    obtain ⟨k, u⟩ := e
    by_cases hk : k = key
    · simp [mapFind, hk] at h
      simp [mapSet, hk, h]
    · simp [mapFind, hk] at h
      simp [mapSet, hk, ih h]

theorem mapErase_of_mapFind_none {V : Type} (m : List (List Nat × V)) (key : List Nat)
    (h : mapFind m key = none) : mapErase m key = m := by
  induction m with
  | nil => rfl
  | cons e rest ih =>
    obtain ⟨k, u⟩ := e
    by_cases hk : k = key
    · simp [mapFind, hk] at h
    · simp [mapFind, hk] at h
      simp [mapErase, hk, ih h]

theorem mapErase_mapSet_of_none {V : Type} (m : List (List Nat × V)) (key : List Nat) (v : V)
    (h : mapFind m key = none) : mapErase (mapSet m key v) key = m := by
  induction m with
  | nil => simp [mapSet, mapErase]
  | cons e rest ih =>
    obtain ⟨k, u⟩ := e
    by_cases hk : k = key
    · simp [mapFind, hk] at h
    · simp [mapFind, hk] at h
      simp [mapSet, mapErase, hk, ih h]

end sapien.physx

namespace sapien.physx

/-! ### Pending detached starts: lemmas -/

theorem zoneEnd_pending_absent (s : StageProfilerCallback) (profilerData : Nat)
    (eventName : Option (List Nat)) (detached : Bool) (contextId now : Nat) (key : List Nat)
    (h : mapFind s.mDetachedStartNs key = none) :
    mapFind (zoneEnd s profilerData eventName detached contextId now).mDetachedStartNs key =
      none := by
  unfold zoneEnd
  by_cases hen : s.mEnabled = true
  · cases detached with
    | false =>
      simp only [hen, Bool.not_true, Bool.false_eq_true, if_false]
      cases unpackProfilerData profilerData with
      | none => exact h
      | some r =>
        obtain ⟨startNs, stage⟩ := r
        by_cases hact : s.mFrameActive = true <;> simp [hact, h]
    | true =>
      simp only [hen, Bool.not_true, Bool.false_eq_true, if_false, if_true]
      cases hfind : mapFind s.mDetachedStartNs (detachedKey eventName contextId) with
      | none => exact h
      | some stack =>
        have hne : detachedKey eventName contextId ≠ key := by
          intro heq
          rw [heq, h] at hfind
          cases hfind
        by_cases hemp : stack.isEmpty = true
        · simp [hemp, h]
        · by_cases hpop : stack.dropLast.isEmpty = true <;>
            by_cases hact : s.mFrameActive = true <;>
            simp [hemp, hpop, hact, mapFind_mapErase, mapFind_mapSet_other _ hne, h, hne]
  · simp [hen, h]

theorem step_pending_absent (s : StageProfilerCallback) (call : Call) (key : List Nat)
    (h : mapFind s.mDetachedStartNs key = none) (hcall : call.startsDetached key = false) :
    mapFind (step s call).mDetachedStartNs key = none := by
  cases call with
  | setEnabled enabled => exact h
  | beginFrame => rfl
  | endFrame => rfl
  | zoneEnd profilerData eventName detached contextId now =>
    exact zoneEnd_pending_absent s profilerData eventName detached contextId now key h
  | zoneStart eventName detached contextId now =>
    simp only [step, zoneStart]
    by_cases hgate : (!s.mEnabled || !s.mFrameActive) = true
    · rw [if_pos hgate]
      exact h
    · rw [if_neg hgate]
      cases detached with
      | false => exact h
      | true =>
        have hne : detachedKey eventName contextId ≠ key := by
          simpa [Call.startsDetached] using hcall
        simp [mapFind_mapSet_other _ hne, h]

theorem run_pending_absent (calls : List Call) (s : StageProfilerCallback) (key : List Nat)
    (h : mapFind s.mDetachedStartNs key = none)
    (hcalls : ∀ call ∈ calls, call.startsDetached key = false) :
    mapFind (run s calls).mDetachedStartNs key = none := by
  induction calls generalizing s with
  | nil => exact h
  | cons call rest ih =>
    have hstep := step_pending_absent s call key h (hcalls call (List.mem_cons_self _ _))
    exact ih (step s call) hstep (fun c hc => hcalls c (List.mem_cons_of_mem _ hc))

theorem run_append (s : StageProfilerCallback) (xs ys : List Call) :
    run s (xs ++ ys) = run (run s xs) ys := by
  simp [run, List.foldl_append]

/-- A detached `zoneEnd` whose key has no entry in the pending map returns at
once. -/
theorem zoneEnd_detached_absent (s : StageProfilerCallback) (profilerData : Nat)
    (eventName : Option (List Nat)) (contextId now : Nat)
    (h : mapFind s.mDetachedStartNs (detachedKey eventName contextId) = none) :
    zoneEnd s profilerData eventName true contextId now = s := by
  unfold zoneEnd
  by_cases hen : s.mEnabled = true <;> simp [hen, h]

/-! ### Frame boundary: claim -/

/-- C7: after `beginFrame` and after `endFrame` the pending detached-start
map is empty, in every state; and when `endFrame`, then any calls that are
not a detached start on the same key (a `beginFrame` among them or not),
come between a detached `zoneStart(N, true, c)` and a detached
`zoneEnd(_, N, true, c)`, that `zoneEnd` changes neither the current nor the
last frame. -/
theorem detached_dropped_across_endFrame (s : StageProfilerCallback)
    (eventName : Option (List Nat)) (contextId t0 : Nat) (before after : List Call)
    (profilerData now : Nat)
    (hafter : ∀ call ∈ after,
      call.startsDetached (detachedKey eventName contextId) = false) :
    (beginFrame s).mDetachedStartNs = [] ∧ (endFrame s).mDetachedStartNs = [] ∧
      (zoneEnd (crossFrameRun s eventName contextId t0 before after) profilerData eventName
          true contextId now).mCurrentFrame =
        (crossFrameRun s eventName contextId t0 before after).mCurrentFrame ∧
      (zoneEnd (crossFrameRun s eventName contextId t0 before after) profilerData eventName
          true contextId now).mLastFrame =
        (crossFrameRun s eventName contextId t0 before after).mLastFrame := by
  have habs : mapFind (crossFrameRun s eventName contextId t0 before after).mDetachedStartNs
      (detachedKey eventName contextId) = none := by
    have hsplit : crossFrameRun s eventName contextId t0 before after =
        run (endFrame (run s (Call.zoneStart eventName true contextId t0 :: before))) after := by
      rw [crossFrameRun, ← List.cons_append, run_append]
      rfl
    rw [hsplit]
    exact run_pending_absent after _ _ rfl hafter
  rw [zoneEnd_detached_absent _ _ _ _ _ habs]
  exact ⟨rfl, rfl, rfl, rfl⟩

/-- C7 (witness): "Async Solve" on context 42 starts detached in one frame;
`endFrame` and the next `beginFrame` come before its end, which then changes
neither frame. -/
theorem detached_dropped_across_endFrame_witness :
    (∀ call ∈ [Call.beginFrame],
        call.startsDetached (detachedKey (some (ascii "Async Solve")) 42) = false) ∧
      (zoneEnd (crossFrameRun inFrame (some (ascii "Async Solve")) 42 10 [] [Call.beginFrame])
          0 (some (ascii "Async Solve")) true 42 20).mCurrentFrame =
        (crossFrameRun inFrame (some (ascii "Async Solve")) 42 10 []
          [Call.beginFrame]).mCurrentFrame ∧
      (zoneEnd (crossFrameRun inFrame (some (ascii "Async Solve")) 42 10 [] [Call.beginFrame])
          0 (some (ascii "Async Solve")) true 42 20).mLastFrame =
        (crossFrameRun inFrame (some (ascii "Async Solve")) 42 10 []
          [Call.beginFrame]).mLastFrame :=
  ⟨by decide,
    (detached_dropped_across_endFrame inFrame (some (ascii "Async Solve")) 42 10 []
      [Call.beginFrame] 0 20 (by decide)).2.2⟩

end sapien.physx

namespace sapien.physx

/-! ### Detached zones: lemmas -/

theorem zoneStart_detached (s : StageProfilerCallback) (eventName : Option (List Nat))
    (contextId now : Nat) (hen : s.mEnabled = true) (hact : s.mFrameActive = true) :
    (zoneStart s eventName true contextId now).1 =
      { s with
        mDetachedStartNs :=
          mapSet s.mDetachedStartNs (detachedKey eventName contextId)
            ((mapFind s.mDetachedStartNs (detachedKey eventName contextId)).getD [] ++ [now]) } := by
  simp [zoneStart, hen, hact]

/-- A detached `zoneEnd` in an active frame pops the most recent start of its
key and accumulates the time since then. -/
theorem zoneEnd_detached_pop (s : StageProfilerCallback) (profilerData : Nat)
    (eventName : Option (List Nat)) (contextId now : Nat) (stack : List Nat) (start : Nat)
    (hen : s.mEnabled = true) (hact : s.mFrameActive = true)
    (hfind : mapFind s.mDetachedStartNs (detachedKey eventName contextId) =
      some (stack ++ [start])) :
    zoneEnd s profilerData eventName true contextId now =
      { s with
        mDetachedStartNs :=
          if stack.isEmpty then mapErase s.mDetachedStartNs (detachedKey eventName contextId)
          else mapSet s.mDetachedStartNs (detachedKey eventName contextId) stack
        mCurrentFrame :=
          accumulateLocked s.mCurrentFrame (classifyZone eventName) eventName
            (u64Sub now start) } := by
  simp [zoneEnd, hen, hact, hfind]

theorem mapFind_accumulateLocked (frame : FrameMetrics) (stage : StageBucket)
    (eventName : Option (List Nat)) (durationNs : Nat) :
    mapFind (accumulateLocked frame stage eventName durationNs).zoneNs (nameOrNull eventName) =
      some (u64Add ((mapFind frame.zoneNs (nameOrNull eventName)).getD 0) durationNs) := by
  simp [accumulateLocked, mapFind_mapSet_same]

/-- The pending stack of the key before the scenario: empty when the key has
no entry. -/
theorem detachedStarts_eq (s : StageProfilerCallback) (eventName : Option (List Nat))
    (contextId t0 t1 : Nat) (hen : s.mEnabled = true) (hact : s.mFrameActive = true) :
    detachedStarts s eventName contextId t0 t1 =
      { s with
        mDetachedStartNs :=
          mapSet s.mDetachedStartNs (detachedKey eventName contextId)
            (((mapFind s.mDetachedStartNs (detachedKey eventName contextId)).getD [] ++ [t0]) ++
              [t1]) } := by
  simp [detachedStarts, zoneStart, hen, hact, mapFind_mapSet_same, mapSet_mapSet]

theorem detachedFirstEnd_eq (s : StageProfilerCallback) (eventName : Option (List Nat))
    (contextId t0 t1 t2 p : Nat) (hen : s.mEnabled = true) (hact : s.mFrameActive = true) :
    detachedFirstEnd s eventName contextId t0 t1 t2 p =
      { s with
        mDetachedStartNs :=
          mapSet s.mDetachedStartNs (detachedKey eventName contextId)
            ((mapFind s.mDetachedStartNs (detachedKey eventName contextId)).getD [] ++ [t0])
        mCurrentFrame :=
          accumulateLocked s.mCurrentFrame (classifyZone eventName) eventName
            (u64Sub t2 t1) } := by
  unfold detachedFirstEnd
  rw [detachedStarts_eq s eventName contextId t0 t1 hen hact]
  rw [zoneEnd_detached_pop
    { s with
      mDetachedStartNs :=
        mapSet s.mDetachedStartNs (detachedKey eventName contextId)
          (((mapFind s.mDetachedStartNs (detachedKey eventName contextId)).getD [] ++ [t0]) ++
            [t1]) }
    p eventName contextId t2
    ((mapFind s.mDetachedStartNs (detachedKey eventName contextId)).getD [] ++ [t0]) t1 hen hact
    (mapFind_mapSet_same _ _ _)]
  simp [mapSet_mapSet]

theorem detachedSecondEnd_eq (s : StageProfilerCallback) (eventName : Option (List Nat))
    (contextId t0 t1 t2 t3 p q : Nat) (hen : s.mEnabled = true) (hact : s.mFrameActive = true) :
    detachedSecondEnd s eventName contextId t0 t1 t2 t3 p q =
      { s with
        mDetachedStartNs :=
          if ((mapFind s.mDetachedStartNs (detachedKey eventName contextId)).getD []).isEmpty
          then mapErase (mapSet s.mDetachedStartNs (detachedKey eventName contextId)
            ((mapFind s.mDetachedStartNs (detachedKey eventName contextId)).getD [] ++ [t0]))
            (detachedKey eventName contextId)
          else mapSet s.mDetachedStartNs (detachedKey eventName contextId)
            ((mapFind s.mDetachedStartNs (detachedKey eventName contextId)).getD [])
        mCurrentFrame :=
          accumulateLocked
            (accumulateLocked s.mCurrentFrame (classifyZone eventName) eventName (u64Sub t2 t1))
            (classifyZone eventName) eventName (u64Sub t3 t0) } := by
  unfold detachedSecondEnd
  rw [detachedFirstEnd_eq s eventName contextId t0 t1 t2 p hen hact]
  rw [zoneEnd_detached_pop
    { s with
      mDetachedStartNs :=
        mapSet s.mDetachedStartNs (detachedKey eventName contextId)
          ((mapFind s.mDetachedStartNs (detachedKey eventName contextId)).getD [] ++ [t0])
      mCurrentFrame :=
        accumulateLocked s.mCurrentFrame (classifyZone eventName) eventName (u64Sub t2 t1) }
    q eventName contextId t3
    ((mapFind s.mDetachedStartNs (detachedKey eventName contextId)).getD []) t0 hen hact
    (mapFind_mapSet_same _ _ _)]
  simp [mapSet_mapSet]

end sapien.physx

namespace sapien.physx

/-! ### Detached zones: claim -/

/-- C8 (counterexample): in the reachable state `onePending`, enabled and in
a frame, "Async Solve" on context 42 already has one start pending; after two
more detached starts and two detached ends of that zone the key is still in
the pending map, holding the earlier start. -/
theorem detached_key_still_pending :
    Reachable onePending ∧ onePending.mEnabled = true ∧ onePending.mFrameActive = true ∧
      mapFind
        (detachedSecondEnd onePending (some (ascii "Async Solve")) 42 10 20 30 40 0
          0).mDetachedStartNs
        (detachedKey (some (ascii "Async Solve")) 42) = some [5] :=
  ⟨⟨[.setEnabled true, .beginFrame, .zoneStart (some (ascii "Async Solve")) true 42 5], rfl⟩,
    by decide, by decide, by decide⟩

/-- C8 (amended): with the profiler enabled and a frame active, two detached
starts of a zone at `t0 ≤ t1` followed by two detached ends at `t2 ≤ t3`
(`t1 ≤ t2`, 64-bit readings) pair last-in-first-out: the first end accumulates
`t2 - t1`, the second `t3 - t0`, each into the stage `classifyZone` gives the
name at the end and into the zone entry of the name. Afterwards the key is
absent from the pending map, which is then what it was before the two starts,
provided the key had no entry before; a stack pending before is left as it
was. -/
theorem detached_lifo (s : StageProfilerCallback) (eventName : Option (List Nat))
    (contextId t0 t1 t2 t3 p q : Nat) (hen : s.mEnabled = true) (hact : s.mFrameActive = true)
    (h01 : t0 ≤ t1) (h12 : t1 ≤ t2) (h23 : t2 ≤ t3) (h3 : t3 < u64Size) :
    (detachedFirstEnd s eventName contextId t0 t1 t2 p).mCurrentFrame =
        accumulateLocked s.mCurrentFrame (classifyZone eventName) eventName (t2 - t1) ∧
      (detachedSecondEnd s eventName contextId t0 t1 t2 t3 p q).mCurrentFrame =
        accumulateLocked (detachedFirstEnd s eventName contextId t0 t1 t2 p).mCurrentFrame
          (classifyZone eventName) eventName (t3 - t0) ∧
      (detachedSecondEnd s eventName contextId t0 t1 t2 t3 p q).mCurrentFrame.stageNs.get
          (classifyZone eventName).index =
        u64Add (u64Add (s.mCurrentFrame.stageNs.get (classifyZone eventName).index) (t2 - t1))
          (t3 - t0) ∧
      mapFind (detachedSecondEnd s eventName contextId t0 t1 t2 t3 p q).mCurrentFrame.zoneNs
          (nameOrNull eventName) =
        some (u64Add
          (u64Add ((mapFind s.mCurrentFrame.zoneNs (nameOrNull eventName)).getD 0) (t2 - t1))
          (t3 - t0)) ∧
      (mapFind s.mDetachedStartNs (detachedKey eventName contextId) = none →
        mapFind (detachedSecondEnd s eventName contextId t0 t1 t2 t3 p q).mDetachedStartNs
            (detachedKey eventName contextId) = none ∧
          (detachedSecondEnd s eventName contextId t0 t1 t2 t3 p q).mDetachedStartNs =
            s.mDetachedStartNs) ∧
      (∀ stack : List Nat, stack ≠ [] →
        mapFind s.mDetachedStartNs (detachedKey eventName contextId) = some stack →
        mapFind (detachedSecondEnd s eventName contextId t0 t1 t2 t3 p q).mDetachedStartNs
            (detachedKey eventName contextId) = some stack) := by
  have hd1 : u64Sub t2 t1 = t2 - t1 := u64Sub_of_le h12 (by omega)
  have hd2 : u64Sub t3 t0 = t3 - t0 := u64Sub_of_le (by omega) h3
  rw [detachedSecondEnd_eq s eventName contextId t0 t1 t2 t3 p q hen hact,
    detachedFirstEnd_eq s eventName contextId t0 t1 t2 p hen hact, hd1, hd2]
  refine ⟨rfl, rfl, ?_, ?_, ?_, ?_⟩
  · simp only [accumulateLocked_stage_same]
  · simp only [mapFind_accumulateLocked, Option.getD_some]
  · intro hnone
    simp only [hnone, Option.getD_none, List.isEmpty_nil, if_true, List.nil_append]
    exact ⟨by simp [mapFind_mapErase], mapErase_mapSet_of_none _ _ _ hnone⟩
  · intro stack hne hsome
    have hemp : stack.isEmpty = false := by
      cases stack with
      | nil => exact absurd rfl hne
      | cons a rest => rfl
    simp only [hsome, Option.getD_some, hemp, Bool.false_eq_true, if_false]
    exact mapFind_mapSet_same _ _ _

/-- C8 (witness): "Async Solve" on context 42, started detached at 10 and 20
and ended at 30 and 40 in a fresh frame. -/
theorem detached_lifo_witness :
    (inFrame.mEnabled = true ∧ inFrame.mFrameActive = true ∧ 10 ≤ 20 ∧ 20 ≤ 30 ∧ 30 ≤ 40 ∧
        40 < u64Size) ∧
      (detachedFirstEnd inFrame (some (ascii "Async Solve")) 42 10 20 30 0).mCurrentFrame =
        accumulateLocked inFrame.mCurrentFrame (classifyZone (some (ascii "Async Solve")))
          (some (ascii "Async Solve")) (30 - 20) ∧
      (detachedSecondEnd inFrame (some (ascii "Async Solve")) 42 10 20 30 40 0 0).mCurrentFrame =
        accumulateLocked
          (detachedFirstEnd inFrame (some (ascii "Async Solve")) 42 10 20 30 0).mCurrentFrame
          (classifyZone (some (ascii "Async Solve"))) (some (ascii "Async Solve")) (40 - 10) :=
  ⟨by decide,
    (detached_lifo inFrame (some (ascii "Async Solve")) 42 10 20 30 40 0 0 (by decide)
      (by decide) (by decide) (by decide) (by decide) (by decide)).1,
    (detached_lifo inFrame (some (ascii "Async Solve")) 42 10 20 30 40 0 0 (by decide)
      (by decide) (by decide) (by decide) (by decide) (by decide)).2.1⟩

end sapien.physx

namespace sapien.physx

/-! ### Unmatched and duplicate ends: claims -/

/-- C9: an unmatched `zoneEnd` is a no-op in every state: a detached one
whose key has no pending start (no entry, or an empty stack), and a
non-detached one carrying the empty token `0`, each return the state
unchanged, so what `getLastFrameZoneMs` reads is unchanged. -/
theorem unmatched_zoneEnd_noop (s : StageProfilerCallback) (profilerData : Nat)
    (eventName : Option (List Nat)) (contextId now : Nat) :
    ((mapFind s.mDetachedStartNs (detachedKey eventName contextId) = none ∨
        mapFind s.mDetachedStartNs (detachedKey eventName contextId) = some []) →
        zoneEnd s profilerData eventName true contextId now = s ∧
          getLastFrameZoneNs (zoneEnd s profilerData eventName true contextId now) =
            getLastFrameZoneNs s) ∧
      zoneEnd s 0 eventName false contextId now = s ∧
      getLastFrameZoneNs (zoneEnd s 0 eventName false contextId now) = getLastFrameZoneNs s := by
  have hdet : (mapFind s.mDetachedStartNs (detachedKey eventName contextId) = none ∨
      mapFind s.mDetachedStartNs (detachedKey eventName contextId) = some []) →
      zoneEnd s profilerData eventName true contextId now = s := by
    intro h
    unfold zoneEnd
    by_cases hen : s.mEnabled = true
    · rcases h with h | h <;> simp [hen, h]
    · simp [hen]
  have htok : zoneEnd s 0 eventName false contextId now = s := by
    unfold zoneEnd
    by_cases hen : s.mEnabled = true <;> simp [hen, unpackProfilerData]
  refine ⟨fun h => ?_, htok, ?_⟩
  · rw [hdet h]
    exact ⟨rfl, rfl⟩
  · rw [htok]

/-- C9 (witness): in a fresh frame nothing is pending, and a detached end of
"Never Started" on context 7 leaves the state as it was. -/
theorem unmatched_zoneEnd_noop_witness :
    (mapFind inFrame.mDetachedStartNs (detachedKey (some (ascii "Never Started")) 7) = none ∨
        mapFind inFrame.mDetachedStartNs (detachedKey (some (ascii "Never Started")) 7) =
          some []) ∧
      zoneEnd inFrame 0 (some (ascii "Never Started")) true 7 100 = inFrame ∧
      getLastFrameZoneNs (zoneEnd inFrame 0 (some (ascii "Never Started")) true 7 100) =
        getLastFrameZoneNs inFrame :=
  ⟨Or.inl (by decide),
    (unmatched_zoneEnd_noop inFrame 0 (some (ascii "Never Started")) 7 100).1
      (Or.inl (by decide))⟩

/-- A non-detached `zoneEnd` in an active frame with a token that decodes
accumulates the time since the start the token carries. -/
theorem zoneEnd_token (s : StageProfilerCallback) (profilerData : Nat)
    (eventName : Option (List Nat)) (contextId now startNs : Nat) (stage : StageBucket)
    (hen : s.mEnabled = true) (hact : s.mFrameActive = true)
    (htok : unpackProfilerData profilerData = some (startNs, stage)) :
    zoneEnd s profilerData eventName false contextId now =
      { s with
        mCurrentFrame :=
          accumulateLocked s.mCurrentFrame stage eventName (u64Sub now startNs) } := by
  simp [zoneEnd, hen, hact, htok]

theorem zoneStart_token (s : StageProfilerCallback) (eventName : Option (List Nat))
    (contextId now : Nat) (hen : s.mEnabled = true) (hact : s.mFrameActive = true) :
    zoneStart s eventName false contextId now =
      (s, packProfilerData now (classifyZone eventName)) := by
  simp [zoneStart, hen, hact]

end sapien.physx

namespace sapien.physx

/-! ### Gates: claims -/

/-- C11: while the enabled flag is false, `zoneStart` with any arguments
returns the empty token and leaves the state unchanged, and `zoneEnd` with
any token, name, detached flag and context id leaves the state unchanged;
the state may be one with a frame active and detached starts pending. -/
theorem disabled_ignores_zones (s : StageProfilerCallback) (hdis : s.mEnabled = false)
    (profilerData : Nat) (eventName : Option (List Nat)) (detached : Bool)
    (contextId now : Nat) :
    zoneStart s eventName detached contextId now = (s, 0) ∧
      zoneEnd s profilerData eventName detached contextId now = s := by
  constructor
  · simp [zoneStart, hdis]
  · simp [zoneEnd, hdis]

/-- C11 (witness): the profiler disabled mid-frame, with the frame still
active and a detached start of "Async Solve" pending, ignores the end of
that zone. -/
theorem disabled_ignores_zones_witness :
    (disabledMidFrame.mEnabled = false ∧ disabledMidFrame.mFrameActive = true ∧
        mapFind disabledMidFrame.mDetachedStartNs (detachedKey (some (ascii "Async Solve")) 42) =
          some [5]) ∧
      zoneStart disabledMidFrame (some (ascii "Async Solve")) true 42 9 = (disabledMidFrame, 0) ∧
      zoneEnd disabledMidFrame 0 (some (ascii "Async Solve")) true 42 9 = disabledMidFrame :=
  ⟨by decide,
    disabled_ignores_zones disabledMidFrame (by decide) 0 (some (ascii "Async Solve")) true 42 9⟩

/-- The shape of every `zoneEnd`: it touches only the pending map and the
current frame, and the current frame is either kept or given one
accumulation under the name of the call. -/
theorem zoneEnd_shape (s : StageProfilerCallback) (profilerData : Nat)
    (eventName : Option (List Nat)) (detached : Bool) (contextId now : Nat) :
    ∃ (pending : List (List Nat × List Nat)) (frame : FrameMetrics),
      zoneEnd s profilerData eventName detached contextId now =
        { s with mDetachedStartNs := pending, mCurrentFrame := frame } ∧
      (frame = s.mCurrentFrame ∨
        ∃ (stage : StageBucket) (durationNs : Nat),
          frame = accumulateLocked s.mCurrentFrame stage eventName durationNs) := by
  unfold zoneEnd
  by_cases hen : s.mEnabled = true
  · have hgate : ¬ ((!s.mEnabled) = true) := by simp [hen]
    rw [if_neg hgate]
    cases detached with
    | false =>
      rw [if_neg Bool.false_ne_true]
      cases hu : unpackProfilerData profilerData with
      | none => exact ⟨s.mDetachedStartNs, s.mCurrentFrame, rfl, Or.inl rfl⟩
      | some r =>
        obtain ⟨startNs, stage⟩ := r
        dsimp only
        by_cases hact : s.mFrameActive = true
        · have hin : ¬ ((!s.mFrameActive) = true) := by simp [hact]
          rw [if_neg hin, if_neg hin]
          exact ⟨s.mDetachedStartNs, _, rfl, Or.inr ⟨stage, _, rfl⟩⟩
        · have hout : (!s.mFrameActive) = true := by simpa using hact
          rw [if_pos hout]
          exact ⟨s.mDetachedStartNs, s.mCurrentFrame, rfl, Or.inl rfl⟩
    | true =>
      rw [if_pos rfl]
      dsimp only
      cases hfind : mapFind s.mDetachedStartNs (detachedKey eventName contextId) with
      | none => exact ⟨s.mDetachedStartNs, s.mCurrentFrame, rfl, Or.inl rfl⟩
      | some stack =>
        dsimp only
        by_cases hemp : stack.isEmpty = true
        · rw [if_pos hemp]
          exact ⟨s.mDetachedStartNs, s.mCurrentFrame, rfl, Or.inl rfl⟩
        · rw [if_neg hemp]
          by_cases hact : s.mFrameActive = true
          · have hin : ¬ ((!s.mFrameActive) = true) := by simp [hact]
            rw [if_neg hin]
            exact ⟨_, _, rfl, Or.inr ⟨_, _, rfl⟩⟩
          · have hout : (!s.mFrameActive) = true := by simpa using hact
            rw [if_pos hout]
            exact ⟨_, s.mCurrentFrame, rfl, Or.inl rfl⟩
  · have hgate : (!s.mEnabled) = true := by simpa using hen
    rw [if_pos hgate]
    exact ⟨s.mDetachedStartNs, s.mCurrentFrame, rfl, Or.inl rfl⟩

theorem zoneEnd_mFrameActive (s : StageProfilerCallback) (profilerData : Nat)
    (eventName : Option (List Nat)) (detached : Bool) (contextId now : Nat) :
    (zoneEnd s profilerData eventName detached contextId now).mFrameActive = s.mFrameActive := by
  obtain ⟨pending, frame, h, _⟩ := zoneEnd_shape s profilerData eventName detached contextId now
  rw [h]

theorem zoneEnd_mLastFrame (s : StageProfilerCallback) (profilerData : Nat)
    (eventName : Option (List Nat)) (detached : Bool) (contextId now : Nat) :
    (zoneEnd s profilerData eventName detached contextId now).mLastFrame = s.mLastFrame := by
  obtain ⟨pending, frame, h, _⟩ := zoneEnd_shape s profilerData eventName detached contextId now
  rw [h]

/-- A `zoneEnd` outside a frame, with nothing pending, returns the state. -/
theorem zoneEnd_inactive (s : StageProfilerCallback) (hact : s.mFrameActive = false)
    (hnil : s.mDetachedStartNs = []) (profilerData : Nat) (eventName : Option (List Nat))
    (detached : Bool) (contextId now : Nat) :
    zoneEnd s profilerData eventName detached contextId now = s := by
  unfold zoneEnd
  by_cases hen : s.mEnabled = true
  · cases detached with
    | true => simp [hen, hnil, mapFind]
    | false =>
      cases hu : unpackProfilerData profilerData with
      | none => simp [hen]
      | some r => simp [hen, hact]
  · simp [hen]

theorem zoneStart_frames (s : StageProfilerCallback) (eventName : Option (List Nat))
    (detached : Bool) (contextId now : Nat) :
    (zoneStart s eventName detached contextId now).1.mFrameActive = s.mFrameActive ∧
      (zoneStart s eventName detached contextId now).1.mCurrentFrame = s.mCurrentFrame ∧
      (zoneStart s eventName detached contextId now).1.mLastFrame = s.mLastFrame := by
  unfold zoneStart
  by_cases hgate : (!s.mEnabled || !s.mFrameActive) = true
  · rw [if_pos hgate]
    exact ⟨rfl, rfl, rfl⟩
  · rw [if_neg hgate]
    cases detached <;> exact ⟨rfl, rfl, rfl⟩

/-- While no frame is active nothing is pending: one call keeps it so. -/
theorem step_inactive_pending (s : StageProfilerCallback) (call : Call)
    (h : s.mFrameActive = false → s.mDetachedStartNs = []) :
    (step s call).mFrameActive = false → (step s call).mDetachedStartNs = [] := by
  cases call with
  | setEnabled enabled => exact h
  | beginFrame => intro hact; cases hact
  | endFrame => intro _; rfl
  | zoneStart eventName detached contextId now =>
    intro hf
    have hs : s.mFrameActive = false := by
      rw [← (zoneStart_frames s eventName detached contextId now).1]
      exact hf
    have hsame : zoneStart s eventName detached contextId now = (s, 0) := by
      simp [zoneStart, hs]
    change (zoneStart s eventName detached contextId now).1.mDetachedStartNs = []
    rw [hsame]
    exact h hs
  | zoneEnd profilerData eventName detached contextId now =>
    intro hf
    have hs : s.mFrameActive = false := by
      rw [← zoneEnd_mFrameActive s profilerData eventName detached contextId now]
      exact hf
    change (zoneEnd s profilerData eventName detached contextId now).mDetachedStartNs = []
    rw [zoneEnd_inactive s hs (h hs)]
    exact h hs

theorem reachable_inactive_pending (s : StageProfilerCallback) (hr : Reachable s)
    (hact : s.mFrameActive = false) : s.mDetachedStartNs = [] := by
  obtain ⟨calls, rfl⟩ := hr
  have key : ∀ (cs : List Call) (s0 : StageProfilerCallback),
      (s0.mFrameActive = false → s0.mDetachedStartNs = []) →
      (run s0 cs).mFrameActive = false → (run s0 cs).mDetachedStartNs = [] := by
    intro cs
    induction cs with
    | nil => intro s0 h0; exact h0
    | cons c rest ih =>
      intro s0 h0
      exact ih (step s0 c) (step_inactive_pending s0 c h0)
  exact key calls StageProfilerCallback.init (fun _ => rfl) hact

/-- C12: in every reachable state whose frame-active flag is false, enabled
or not, `zoneStart` returns the empty token and leaves the state unchanged,
and `zoneEnd` with any token, name, detached flag and context id leaves the
whole state unchanged, the pending detached-start map included. -/
theorem inactive_ignores_zones (s : StageProfilerCallback) (hr : Reachable s)
    (hact : s.mFrameActive = false) (profilerData : Nat) (eventName : Option (List Nat))
    (detached : Bool) (contextId now : Nat) :
    zoneStart s eventName detached contextId now = (s, 0) ∧
      zoneEnd s profilerData eventName detached contextId now = s := by
  have hnil := reachable_inactive_pending s hr hact
  constructor
  · simp [zoneStart, hact]
  · exact zoneEnd_inactive s hact hnil profilerData eventName detached contextId now

/-- C12 (witness): the enabled profiler before any frame ignores the start,
and the end carrying a non-empty token, of the zone "Solver". -/
theorem inactive_ignores_zones_witness :
    (Reachable enabledNoFrame ∧ enabledNoFrame.mEnabled = true ∧
        enabledNoFrame.mFrameActive = false) ∧
      zoneStart enabledNoFrame (some (ascii "Solver")) false 0 100 = (enabledNoFrame, 0) ∧
      zoneEnd enabledNoFrame (packProfilerData 100 .eSolver) (some (ascii "Solver")) false 0
        200 = enabledNoFrame :=
  ⟨⟨⟨[.setEnabled true], rfl⟩, by decide, by decide⟩,
    inactive_ignores_zones enabledNoFrame ⟨[.setEnabled true], rfl⟩ (by decide)
      (packProfilerData 100 .eSolver) (some (ascii "Solver")) false 0 200⟩

end sapien.physx

namespace sapien.physx

/-! ### Snapshot and frame lifecycle: claims -/

theorem step_mLastFrame (s : StageProfilerCallback) (call : Call) (h : call ≠ .endFrame) :
    (step s call).mLastFrame = s.mLastFrame := by
  cases call with
  | setEnabled enabled => rfl
  | beginFrame => rfl
  | endFrame => exact absurd rfl h
  | zoneStart eventName detached contextId now =>
    exact (zoneStart_frames s eventName detached contextId now).2.2
  | zoneEnd profilerData eventName detached contextId now =>
    exact zoneEnd_mLastFrame s profilerData eventName detached contextId now

theorem run_mLastFrame (calls : List Call) (s : StageProfilerCallback)
    (h : ∀ call ∈ calls, call ≠ .endFrame) : (run s calls).mLastFrame = s.mLastFrame := by
  induction calls generalizing s with
  | nil => rfl
  | cons call rest ih =>
    have hrest := ih (step s call) (fun c hc => h c (List.mem_cons_of_mem _ hc))
    have hstep := step_mLastFrame s call (h call (List.mem_cons_self _ _))
    change (run (step s call) rest).mLastFrame = s.mLastFrame
    rw [hrest, hstep]

theorem getters_of_mLastFrame (s t : StageProfilerCallback) (h : t.mLastFrame = s.mLastFrame) :
    getLastFrameStageNs t = getLastFrameStageNs s ∧
      getLastFrameZoneNs t = getLastFrameZoneNs s := by
  simp only [getLastFrameStageNs, getLastFrameZoneNs, totalNs, h, and_self]

/-- C13: the two queries are functions of the state that change nothing; a
call other than `endFrame` (`setEnabled`, `beginFrame`, `zoneStart`, `zoneEnd`,
with any arguments) leaves the results of both as they were, and so does any
sequence of such calls. -/
theorem snapshot_changes_only_at_endFrame (s : StageProfilerCallback) :
    (∀ call : Call, call ≠ .endFrame →
        getLastFrameStageNs (step s call) = getLastFrameStageNs s ∧
          getLastFrameZoneNs (step s call) = getLastFrameZoneNs s) ∧
      (∀ calls : List Call, (∀ call ∈ calls, call ≠ .endFrame) →
        getLastFrameStageNs (run s calls) = getLastFrameStageNs s ∧
          getLastFrameZoneNs (run s calls) = getLastFrameZoneNs s) :=
  ⟨fun call h => getters_of_mLastFrame s _ (step_mLastFrame s call h),
    fun calls h => getters_of_mLastFrame s _ (run_mLastFrame calls s h)⟩

/-- C13 (witness): after the two-millisecond frame of "Broadphase Update", a
new frame is begun and a zone "Solver" runs in it; until `endFrame` the
queries still report the earlier frame. -/
theorem snapshot_changes_only_at_endFrame_witness :
    (∀ call ∈ [Call.beginFrame, Call.zoneStart (some (ascii "Solver")) false 0 3000000,
        Call.zoneEnd (packProfilerData 3000000 .eSolver) (some (ascii "Solver")) false 0
          4000000], call ≠ Call.endFrame) ∧
      getLastFrameStageNs
          (run (singleZoneRun (some (ascii "Broadphase Update")) 0 1000 2001000)
            [Call.beginFrame, Call.zoneStart (some (ascii "Solver")) false 0 3000000,
              Call.zoneEnd (packProfilerData 3000000 .eSolver) (some (ascii "Solver")) false 0
                4000000]) =
        getLastFrameStageNs (singleZoneRun (some (ascii "Broadphase Update")) 0 1000 2001000) :=
  ⟨by decide,
    ((snapshot_changes_only_at_endFrame
      (singleZoneRun (some (ascii "Broadphase Update")) 0 1000 2001000)).2 _ (by decide)).1⟩

/-- C16 (counterexample): after the run of the single zone "Broadphase
Update", which ends with `endFrame`, the current frame still holds the 2000000
ns of Broadphase and the zone entry: `endFrame` has not zeroed it. -/
theorem endFrame_keeps_current :
    (singleZoneRun (some (ascii "Broadphase Update")) 0 1000 2001000).mCurrentFrame.stageNs.get
        StageBucket.eBroadphase.index = 2000000 ∧
      (singleZoneRun (some (ascii "Broadphase Update")) 0 1000 2001000).mCurrentFrame.zoneNs =
        [(ascii "Broadphase Update", 2000000)] ∧
      (singleZoneRun (some (ascii "Broadphase Update")) 0 1000 2001000).mCurrentFrame ≠
        FrameMetrics.zero := by
  decide

/-- C16 (amended): in every state, after `endFrame` the last frame equals
the current frame as it was before the call, and the current frame itself is
left as it was; it is `beginFrame` that replaces the current frame by the zero
frame (six totals `0`, no zone entry) and leaves the last frame alone. -/
theorem endFrame_copies_current (s : StageProfilerCallback) :
    (endFrame s).mLastFrame = s.mCurrentFrame ∧
      (endFrame s).mCurrentFrame = s.mCurrentFrame ∧
      (beginFrame s).mCurrentFrame = FrameMetrics.zero ∧
      (beginFrame s).mLastFrame = s.mLastFrame ∧
      (∀ stage : StageBucket, FrameMetrics.zero.stageNs.get stage.index = 0) ∧
      FrameMetrics.zero.zoneNs = [] :=
  ⟨rfl, rfl, rfl, rfl, fun stage => zero_stage stage.index, rfl⟩

end sapien.physx

namespace sapien.physx

/-! ### Token codec: decoding and the 61-bit range -/

theorem StageBucket.toNat_ofValue {n : Nat} (h : n < 6) : (StageBucket.ofValue n).toNat = n := by
  interval_cases n <;> rfl

theorem StageBucket.toNat_injective {a b : StageBucket} (h : a.toNat = b.toNat) : a = b := by
  cases a <;> cases b <;> first | rfl | cases h

/-- C15: every non-zero token, so every non-zero 64-bit one, decodes:
`unpackProfilerData` returns true, the stage is the one numbered `p mod 8`
when that is below 6 and Other when it is 6 or 7, and the start is
`((p >> 3) - 1) mod 2 ^ 64`. -/
theorem unpack_nonzero (p : Nat) (hp : p ≠ 0) :
    ∃ (startNs : Nat) (stage : StageBucket),
      unpackProfilerData p = some (startNs, stage) ∧
        startNs = (p >>> 3 + 2 ^ 64 - 1) % 2 ^ 64 ∧
        (p % 8 < 6 → stage.toNat = p % 8) ∧
        (6 ≤ p % 8 → stage = .eOther) := by
  have hmask : p &&& kPackedStageMask = p % 8 := by
    have h := Nat.and_pow_two_sub_one_eq_mod p 3
    have h7 : kPackedStageMask = 2 ^ 3 - 1 := by decide
    rw [h7, h]
  refine ⟨u64Sub (p >>> 3) 1,
    if p % 8 ≥ kStageBucketCount then .eOther else StageBucket.ofValue (p % 8), ?_, ?_, ?_, ?_⟩
  · simp only [unpackProfilerData, if_neg hp, hmask]
  · simp [u64Sub, u64Size]
  · intro h
    have h6 : ¬ (p % 8 ≥ kStageBucketCount) := by
      simp only [kStageBucketCount]
      omega
    rw [if_neg h6]
    exact StageBucket.toNat_ofValue h
  · intro h
    have h6 : p % 8 ≥ kStageBucketCount := h
    rw [if_pos h6]

/-- C15 (witness): the token `15` has stage bits 7 and start bits 1: it
decodes, to the stage Other and the start 0. -/
theorem unpack_nonzero_witness :
    15 ≠ 0 ∧
      ∃ (startNs : Nat) (stage : StageBucket),
        unpackProfilerData 15 = some (startNs, stage) ∧
          startNs = (15 >>> 3 + 2 ^ 64 - 1) % 2 ^ 64 ∧
          (15 % 8 < 6 → stage.toNat = 15 % 8) ∧
          (6 ≤ 15 % 8 → stage = .eOther) :=
  ⟨by decide, unpack_nonzero 15 (by decide)⟩

/-- C20: on starts with `startNs + 1 < 2 ^ 61` the codec is exact: the token
is non-zero and decodes to exactly the start and stage packed; so packing is
injective there; and with the profiler enabled and a frame active, a
non-detached `zoneStart` at `t0` and `zoneEnd` with its token at `t1`,
`t0 ≤ t1` in that range, accumulate exactly `t1 - t0`, in the stage of the
name and under the name. -/
theorem codec_exact_on_61_bits :
    (∀ (startNs : Nat) (stage : StageBucket), startNs + 1 < 2 ^ 61 →
        packProfilerData startNs stage ≠ 0 ∧
          unpackProfilerData (packProfilerData startNs stage) = some (startNs, stage)) ∧
      (∀ (a b : Nat) (sa sb : StageBucket), a + 1 < 2 ^ 61 → b + 1 < 2 ^ 61 →
        packProfilerData a sa = packProfilerData b sb → a = b ∧ sa = sb) ∧
      (∀ (s : StageProfilerCallback) (eventName : Option (List Nat)) (contextId t0 t1 : Nat),
        s.mEnabled = true → s.mFrameActive = true → t0 ≤ t1 → t1 + 1 < 2 ^ 61 →
        (tokenFirstEnd s eventName contextId t0 t1).mCurrentFrame =
          accumulateLocked s.mCurrentFrame (classifyZone eventName) eventName (t1 - t0)) := by
  refine ⟨?_, ?_, ?_⟩
  · intro startNs stage h
    refine ⟨?_, unpack_pack_of_lt startNs stage h⟩
    rw [packProfilerData_eq]
    omega
  · intro a b sa sb ha hb heq
    have h1 := unpack_pack_of_lt a sa ha
    have h2 := unpack_pack_of_lt b sb hb
    rw [heq, h2] at h1
    simp only [Option.some.injEq, Prod.mk.injEq] at h1
    exact ⟨h1.1.symm, h1.2.symm⟩
  · intro s eventName contextId t0 t1 hen hact h01 h1
    have hd : u64Sub t1 t0 = t1 - t0 := by
      apply u64Sub_of_le h01
      simp only [u64Size]
      omega
    unfold tokenFirstEnd
    rw [zoneStart_token s eventName contextId t0 hen hact,
      zoneEnd_token s _ eventName contextId t1 t0 _ hen hact
        (unpack_pack_of_lt t0 _ (by omega)), hd]

/-- C20 (witness): the zone "Solver" from clock reading 100 to 200 in a
fresh frame accumulates 100. -/
theorem codec_exact_on_61_bits_witness :
    (inFrame.mEnabled = true ∧ inFrame.mFrameActive = true ∧ 100 ≤ 200 ∧ 200 + 1 < 2 ^ 61) ∧
      (tokenFirstEnd inFrame (some (ascii "Solver")) 0 100 200).mCurrentFrame =
        accumulateLocked inFrame.mCurrentFrame (classifyZone (some (ascii "Solver")))
          (some (ascii "Solver")) (200 - 100) :=
  ⟨by decide,
    codec_exact_on_61_bits.2.2 inFrame (some (ascii "Solver")) 0 100 200 (by decide)
      (by decide) (by decide) (by decide)⟩

end sapien.physx

namespace sapien.physx

/-! ### Stage totals against zone totals: lemmas -/

theorem zoneSum_mapSet (m : List (List Nat × Nat)) (key : List Nat) (d : Nat) :
    ((mapSet m key (u64Add ((mapFind m key).getD 0) d)).map (fun entry => entry.2)).sum %
        u64Size =
      ((m.map (fun entry => entry.2)).sum + d) % u64Size := by
  induction m with
  | nil => simp [mapSet, mapFind, u64Add]
  | cons e rest ih =>
    obtain ⟨k, w⟩ := e
    by_cases h : k = key
    · simp only [mapSet, mapFind, h, if_true, Option.getD_some, List.map_cons, List.sum_cons,
        u64Add, u64Size]
      omega
    · simp only [mapSet, mapFind, h, if_false, List.map_cons, List.sum_cons]
      simp only [u64Size] at ih ⊢
      omega

theorem stageSum_accumulateLocked (frame : FrameMetrics) (stage : StageBucket)
    (eventName : Option (List Nat)) (d : Nat) :
    stageSum (accumulateLocked frame stage eventName d) % u64Size =
      (stageSum frame + d) % u64Size := by
  cases stage <;>
    simp only [stageSum, accumulateLocked, StageBucket.index, Mathlib.Vector.get_set_eq_if,
      u64Add, u64Size] <;>
    simp <;> omega

theorem totalsAgree_accumulateLocked (frame : FrameMetrics) (stage : StageBucket)
    (eventName : Option (List Nat)) (d : Nat) (h : TotalsAgree frame) :
    TotalsAgree (accumulateLocked frame stage eventName d) := by
  have hs := stageSum_accumulateLocked frame stage eventName d
  have hz := zoneSum_mapSet frame.zoneNs (nameOrNull eventName) d
  simp only [TotalsAgree, zoneSum] at h ⊢
  rw [hs]
  simp only [accumulateLocked]
  rw [hz]
  simp only [u64Size] at h ⊢
  omega

theorem totalsAgree_zero : TotalsAgree FrameMetrics.zero := by
  unfold TotalsAgree
  decide

theorem step_totalsAgree (s : StageProfilerCallback) (call : Call)
    (h : TotalsAgree s.mCurrentFrame ∧ TotalsAgree s.mLastFrame) :
    TotalsAgree (step s call).mCurrentFrame ∧ TotalsAgree (step s call).mLastFrame := by
  cases call with
  | setEnabled enabled => exact h
  | beginFrame => exact ⟨totalsAgree_zero, h.2⟩
  | endFrame => exact ⟨h.1, h.1⟩
  | zoneStart eventName detached contextId now =>
    have hf := zoneStart_frames s eventName detached contextId now
    simp only [step]
    rw [hf.2.1, hf.2.2]
    exact h
  | zoneEnd profilerData eventName detached contextId now =>
    obtain ⟨pending, frame, heq, hframe⟩ :=
      zoneEnd_shape s profilerData eventName detached contextId now
    simp only [step]
    rw [heq]
    refine ⟨?_, h.2⟩
    rcases hframe with hsame | ⟨stage, d, hacc⟩
    · rw [hsame]
      exact h.1
    · rw [hacc]
      exact totalsAgree_accumulateLocked _ _ _ _ h.1

theorem run_totalsAgree (calls : List Call) (s : StageProfilerCallback)
    (h : TotalsAgree s.mCurrentFrame ∧ TotalsAgree s.mLastFrame) :
    TotalsAgree (run s calls).mCurrentFrame ∧ TotalsAgree (run s calls).mLastFrame := by
  induction calls generalizing s with
  | nil => exact h
  | cons call rest ih => exact ih (step s call) (step_totalsAgree s call h)

/-! ### Stage totals against zone totals: claim -/

/-- C19: in every state reachable from the constructed profiler, for the
current and for the last frame alike, the sum of the six stage totals equals
the sum of all zone totals modulo `2 ^ 64`. -/
theorem stage_and_zone_totals_agree (s : StageProfilerCallback) (hr : Reachable s) :
    stageSum s.mCurrentFrame % 2 ^ 64 = zoneSum s.mCurrentFrame % 2 ^ 64 ∧
      stageSum s.mLastFrame % 2 ^ 64 = zoneSum s.mLastFrame % 2 ^ 64 := by
  obtain ⟨calls, rfl⟩ := hr
  exact run_totalsAgree calls StageProfilerCallback.init ⟨totalsAgree_zero, totalsAgree_zero⟩

/-- C19 (witness): the state after the frame of `longFrameCalls`, whose two
stage totals of `2 ^ 63` and two zone totals of `2 ^ 63` agree. -/
theorem stage_and_zone_totals_agree_witness :
    Reachable (run StageProfilerCallback.init longFrameCalls) ∧
      stageSum (run StageProfilerCallback.init longFrameCalls).mCurrentFrame % 2 ^ 64 =
        zoneSum (run StageProfilerCallback.init longFrameCalls).mCurrentFrame % 2 ^ 64 ∧
      stageSum (run StageProfilerCallback.init longFrameCalls).mLastFrame % 2 ^ 64 =
        zoneSum (run StageProfilerCallback.init longFrameCalls).mLastFrame % 2 ^ 64 :=
  ⟨⟨longFrameCalls, rfl⟩, stage_and_zone_totals_agree _ ⟨longFrameCalls, rfl⟩⟩

end sapien.physx

namespace sapien.physx

/-! ### Order of accumulation: lemmas -/

theorem u64Add_right_comm (x a b : Nat) : u64Add (u64Add x a) b = u64Add (u64Add x b) a := by
  simp only [u64Add, u64Size]
  omega

theorem mapFind_accumulateLocked_key (frame : FrameMetrics) (stage : StageBucket)
    (eventName : Option (List Nat)) (d : Nat) (key : List Nat) :
    mapFind (accumulateLocked frame stage eventName d).zoneNs key =
      if nameOrNull eventName = key then
        some (u64Add ((mapFind frame.zoneNs key).getD 0) d)
      else mapFind frame.zoneNs key := by
  by_cases h : nameOrNull eventName = key
  · rw [if_pos h, ← h]
    exact mapFind_mapSet_same _ _ _
  · rw [if_neg h]
    exact mapFind_mapSet_other _ h _

/-- Accumulating into two frames with the same totals and the same zone map
gives two such frames again. -/
theorem accumulateLocked_congr (f g : FrameMetrics) (stage : StageBucket)
    (eventName : Option (List Nat)) (d : Nat)
    (hs : f.stageNs = g.stageNs) (hz : SameMap f.zoneNs g.zoneNs) :
    (accumulateLocked f stage eventName d).stageNs =
        (accumulateLocked g stage eventName d).stageNs ∧
      SameMap (accumulateLocked f stage eventName d).zoneNs
        (accumulateLocked g stage eventName d).zoneNs := by
  constructor
  · simp only [accumulateLocked, hs]
  · intro key
    rw [mapFind_accumulateLocked_key, mapFind_accumulateLocked_key, hz key]

/-- Two accumulations made in either order give the same totals and the same
zone map. -/
theorem accumulateLocked_swap (f : FrameMetrics) (s₁ s₂ : StageBucket)
    (n₁ n₂ : Option (List Nat)) (d₁ d₂ : Nat) :
    (accumulateLocked (accumulateLocked f s₁ n₁ d₁) s₂ n₂ d₂).stageNs =
        (accumulateLocked (accumulateLocked f s₂ n₂ d₂) s₁ n₁ d₁).stageNs ∧
      SameMap (accumulateLocked (accumulateLocked f s₁ n₁ d₁) s₂ n₂ d₂).zoneNs
        (accumulateLocked (accumulateLocked f s₂ n₂ d₂) s₁ n₁ d₁).zoneNs := by
  constructor
  · apply Mathlib.Vector.ext
    intro i
    simp only [accumulateLocked, Mathlib.Vector.get_set_eq_if]
    by_cases h12 : s₁.index = s₂.index
    · by_cases h2 : s₂.index = i
      · simp [h12, h2, u64Add_right_comm]
      · simp [h12, h2]
    · by_cases h1 : s₁.index = i
      · have h2 : ¬ s₂.index = i := fun h => h12 (h1.trans h.symm)
        simp [h12, h1, h2, Ne.symm h12]
      · by_cases h2 : s₂.index = i
        · simp [h12, h1, h2, Ne.symm h12]
        · simp [h1, h2]
  · intro key
    simp only [mapFind_accumulateLocked_key]
    by_cases h1 : nameOrNull n₁ = key <;> by_cases h2 : nameOrNull n₂ = key <;>
      simp [h1, h2, u64Add_right_comm]

theorem accumulateAll_congr (items : List (StageBucket × Option (List Nat) × Nat))
    (f g : FrameMetrics) (hs : f.stageNs = g.stageNs) (hz : SameMap f.zoneNs g.zoneNs) :
    (accumulateAll f items).stageNs = (accumulateAll g items).stageNs ∧
      SameMap (accumulateAll f items).zoneNs (accumulateAll g items).zoneNs := by
  induction items generalizing f g with
  | nil => exact ⟨hs, hz⟩
  | cons item rest ih =>
    have h := accumulateLocked_congr f g item.1 item.2.1 item.2.2 hs hz
    exact ih _ _ h.1 h.2

theorem accumulateAll_perm {items₁ items₂ : List (StageBucket × Option (List Nat) × Nat)}
    (hperm : items₁.Perm items₂) (f g : FrameMetrics)
    (hs : f.stageNs = g.stageNs) (hz : SameMap f.zoneNs g.zoneNs) :
    (accumulateAll f items₁).stageNs = (accumulateAll g items₂).stageNs ∧
      SameMap (accumulateAll f items₁).zoneNs (accumulateAll g items₂).zoneNs := by
  induction hperm generalizing f g with
  | nil => exact ⟨hs, hz⟩
  | cons item _ ih =>
    have h := accumulateLocked_congr f g item.1 item.2.1 item.2.2 hs hz
    exact ih _ _ h.1 h.2
  | swap a b rest =>
    have h1 := accumulateLocked_congr f g b.1 b.2.1 b.2.2 hs hz
    have h2 := accumulateLocked_congr _ _ a.1 a.2.1 a.2.2 h1.1 h1.2
    have h3 := accumulateLocked_swap g b.1 a.1 b.2.1 a.2.1 b.2.2 a.2.2
    have hs' := h2.1.trans h3.1
    have hz' : SameMap
        (accumulateLocked (accumulateLocked f b.1 b.2.1 b.2.2) a.1 a.2.1 a.2.2).zoneNs
        (accumulateLocked (accumulateLocked g a.1 a.2.1 a.2.2) b.1 b.2.1 b.2.2).zoneNs :=
      fun key => (h2.2 key).trans (h3.2 key)
    exact accumulateAll_congr rest _ _ hs' hz'
  | trans _ _ ih₁ ih₂ =>
    have h1 := ih₁ f g hs hz
    have h2 := ih₂ g g rfl (fun _ => rfl)
    exact ⟨h1.1.trans h2.1, fun key => (h1.2 key).trans (h2.2 key)⟩

/-! ### Order of accumulation: claim -/

/-- C14: for every frame and every list of accumulations `(stage, name,
durationNs)`, making the `accumulateLocked` calls in any permutation of the
list gives the same six stage totals and the same zone-name map (every name
mapped to the same total). -/
theorem accumulate_order_independent (frame : FrameMetrics)
    (items₁ items₂ : List (StageBucket × Option (List Nat) × Nat))
    (hperm : items₁.Perm items₂) :
    (accumulateAll frame items₁).stageNs = (accumulateAll frame items₂).stageNs ∧
      SameMap (accumulateAll frame items₁).zoneNs (accumulateAll frame items₂).zoneNs :=
  accumulateAll_perm hperm frame frame rfl (fun _ => rfl)

/-- C14 (witness): "Solver" for 5 ns and "Integrate" for 7 ns give the same
totals and the same zone map whichever is accumulated first. -/
theorem accumulate_order_independent_witness :
    [(StageBucket.eSolver, some (ascii "Solver"), 5),
        (StageBucket.eUpdate, some (ascii "Integrate"), 7)].Perm
      [(StageBucket.eUpdate, some (ascii "Integrate"), 7),
        (StageBucket.eSolver, some (ascii "Solver"), 5)] ∧
      (accumulateAll FrameMetrics.zero
          [(StageBucket.eSolver, some (ascii "Solver"), 5),
            (StageBucket.eUpdate, some (ascii "Integrate"), 7)]).stageNs =
        (accumulateAll FrameMetrics.zero
          [(StageBucket.eUpdate, some (ascii "Integrate"), 7),
            (StageBucket.eSolver, some (ascii "Solver"), 5)]).stageNs ∧
      SameMap
        (accumulateAll FrameMetrics.zero
          [(StageBucket.eSolver, some (ascii "Solver"), 5),
            (StageBucket.eUpdate, some (ascii "Integrate"), 7)]).zoneNs
        (accumulateAll FrameMetrics.zero
          [(StageBucket.eUpdate, some (ascii "Integrate"), 7),
            (StageBucket.eSolver, some (ascii "Solver"), 5)]).zoneNs :=
  ⟨List.Perm.swap _ _ _,
    accumulate_order_independent FrameMetrics.zero _ _ (List.Perm.swap _ _ _)⟩

end sapien.physx

namespace sapien.physx

/-! ### Null and empty names: lemmas -/

/-- A detached zone in an active frame accumulates the time between its start
and its end, classified by its name. -/
theorem detachedZone_frame (s : StageProfilerCallback) (eventName : Option (List Nat))
    (contextId t0 t1 p : Nat) (hen : s.mEnabled = true) (hact : s.mFrameActive = true) :
    (detachedZone s eventName contextId t0 t1 p).mCurrentFrame =
      accumulateLocked s.mCurrentFrame (classifyZone eventName) eventName (u64Sub t1 t0) := by
  unfold detachedZone
  rw [zoneStart_detached s eventName contextId t0 hen hact]
  rw [zoneEnd_detached_pop
    { s with
      mDetachedStartNs :=
        mapSet s.mDetachedStartNs (detachedKey eventName contextId)
          ((mapFind s.mDetachedStartNs (detachedKey eventName contextId)).getD [] ++ [t0]) }
    p eventName contextId t1
    ((mapFind s.mDetachedStartNs (detachedKey eventName contextId)).getD []) t0 hen hact
    (mapFind_mapSet_same _ _ _)]

/-- A non-detached zone in an active frame, its start in the 61-bit range,
accumulates the time between its start and its end, classified by its name. -/
theorem tokenFirstEnd_frame (s : StageProfilerCallback) (eventName : Option (List Nat))
    (contextId t0 t1 : Nat) (hen : s.mEnabled = true) (hact : s.mFrameActive = true)
    (h0 : t0 + 1 < 2 ^ 61) :
    (tokenFirstEnd s eventName contextId t0 t1).mCurrentFrame =
      accumulateLocked s.mCurrentFrame (classifyZone eventName) eventName (u64Sub t1 t0) := by
  unfold tokenFirstEnd
  rw [zoneStart_token s eventName contextId t0 hen hact,
    zoneEnd_token s _ eventName contextId t1 t0 _ hen hact (unpack_pack_of_lt t0 _ h0)]

/-! ### Null and empty names: claim -/

/-- C17 (counterexample): a zone with the empty name, non-detached or
detached, from clock reading 100 to 200 in a fresh frame: the 100 ns go to the
stage Other, and the zone map gets the single entry of the empty name; the
placeholder "<null>" has no entry. -/
theorem empty_name_not_under_placeholder :
    inFrame.mEnabled = true ∧ inFrame.mFrameActive = true ∧
      (tokenFirstEnd inFrame (some []) 0 100 200).mCurrentFrame.stageNs.get
        StageBucket.eOther.index = 100 ∧
      (tokenFirstEnd inFrame (some []) 0 100 200).mCurrentFrame.zoneNs = [([], 100)] ∧
      mapFind (tokenFirstEnd inFrame (some []) 0 100 200).mCurrentFrame.zoneNs
        (ascii "<null>") = none ∧
      (detachedZone inFrame (some []) 0 100 200 0).mCurrentFrame.zoneNs = [([], 100)] ∧
      mapFind (detachedZone inFrame (some []) 0 100 200 0).mCurrentFrame.zoneNs
        (ascii "<null>") = none := by
  decide

/-- C17 (amended): with the profiler enabled and a frame active, a zone,
non-detached (start in the 61-bit range) or detached, whose name is null or
empty has its duration added to the stage Other and to no other stage. For a
null name the duration is added to the zone entry of the placeholder "<null>"
and no other entry changes; for an empty name it is added to the entry of the
empty name itself and no other entry, that of "<null>" included, changes. -/
theorem null_or_empty_name (s : StageProfilerCallback) (contextId t0 t1 p : Nat)
    (hen : s.mEnabled = true) (hact : s.mFrameActive = true) (h0 : t0 + 1 < 2 ^ 61) :
    ((tokenFirstEnd s none contextId t0 t1).mCurrentFrame =
        accumulateLocked s.mCurrentFrame .eOther none (u64Sub t1 t0) ∧
      (detachedZone s none contextId t0 t1 p).mCurrentFrame =
        accumulateLocked s.mCurrentFrame .eOther none (u64Sub t1 t0) ∧
      (tokenFirstEnd s (some []) contextId t0 t1).mCurrentFrame =
        accumulateLocked s.mCurrentFrame .eOther (some []) (u64Sub t1 t0) ∧
      (detachedZone s (some []) contextId t0 t1 p).mCurrentFrame =
        accumulateLocked s.mCurrentFrame .eOther (some []) (u64Sub t1 t0)) ∧
      (∀ (name : Option (List Nat)) (d : Nat),
        (accumulateLocked s.mCurrentFrame .eOther name d).stageNs.get StageBucket.eOther.index =
            u64Add (s.mCurrentFrame.stageNs.get StageBucket.eOther.index) d ∧
          ∀ stage : StageBucket, stage ≠ .eOther →
            (accumulateLocked s.mCurrentFrame .eOther name d).stageNs.get stage.index =
              s.mCurrentFrame.stageNs.get stage.index) ∧
      (∀ d : Nat,
        mapFind (accumulateLocked s.mCurrentFrame .eOther none d).zoneNs (ascii "<null>") =
            some (u64Add ((mapFind s.mCurrentFrame.zoneNs (ascii "<null>")).getD 0) d) ∧
          ∀ key : List Nat, key ≠ ascii "<null>" →
            mapFind (accumulateLocked s.mCurrentFrame .eOther none d).zoneNs key =
              mapFind s.mCurrentFrame.zoneNs key) ∧
      (∀ d : Nat,
        mapFind (accumulateLocked s.mCurrentFrame .eOther (some []) d).zoneNs [] =
            some (u64Add ((mapFind s.mCurrentFrame.zoneNs []).getD 0) d) ∧
          ∀ key : List Nat, key ≠ [] →
            mapFind (accumulateLocked s.mCurrentFrame .eOther (some []) d).zoneNs key =
              mapFind s.mCurrentFrame.zoneNs key) := by
  refine ⟨⟨?_, ?_, ?_, ?_⟩, ?_, ?_, ?_⟩
  · exact tokenFirstEnd_frame s none contextId t0 t1 hen hact h0
  · exact detachedZone_frame s none contextId t0 t1 p hen hact
  · exact tokenFirstEnd_frame s (some []) contextId t0 t1 hen hact h0
  · exact detachedZone_frame s (some []) contextId t0 t1 p hen hact
  · intro name d
    exact ⟨accumulateLocked_stage_same _ _ _ _,
      fun stage hne => accumulateLocked_stage_other _ hne _ _⟩
  · intro d
    refine ⟨mapFind_accumulateLocked _ _ none _, ?_⟩
    intro key hne
    rw [mapFind_accumulateLocked_key, if_neg (fun h => hne h.symm)]
  · intro d
    refine ⟨mapFind_accumulateLocked _ _ (some []) _, ?_⟩
    intro key hne
    rw [mapFind_accumulateLocked_key, if_neg (fun h => hne h.symm)]

/-- C17 (witness): a null-named zone from 100 to 200 in a fresh frame is
accumulated in Other under the placeholder. -/
theorem null_or_empty_name_witness :
    (inFrame.mEnabled = true ∧ inFrame.mFrameActive = true ∧ 100 + 1 < 2 ^ 61) ∧
      (tokenFirstEnd inFrame none 0 100 200).mCurrentFrame =
        accumulateLocked inFrame.mCurrentFrame .eOther none (u64Sub 200 100) ∧
      (tokenFirstEnd inFrame none 0 100 200).mCurrentFrame.zoneNs = [(ascii "<null>", 100)] :=
  ⟨by decide,
    (null_or_empty_name inFrame 0 100 200 0 (by decide) (by decide) (by decide)).1.1,
    by decide⟩

end sapien.physx

namespace sapien.physx

/-! ### Decimal strings: lemmas -/

theorem digitChar_toNat {d : Nat} (h : d < 10) : (Nat.digitChar d).toNat = 48 + d := by
  interval_cases d <;> rfl

theorem toDigitsCore_eq (n : Nat) :
    ∀ (fuel : Nat) (ds : List Char), n < fuel →
      Nat.toDigitsCore 10 fuel n ds = Nat.toDigits 10 n ++ ds := by
  induction n using Nat.strong_induction_on with
  | _ n ih =>
    intro fuel ds hf
    cases fuel with
    | zero => omega
    | succ f =>
      rw [Nat.toDigits, Nat.toDigitsCore, Nat.toDigitsCore]
      by_cases h : n / 10 = 0
      · simp [h]
      · simp only [h, if_false]
        rw [ih (n / 10) (by omega) f _ (by omega), ih (n / 10) (by omega) n _ (by omega)]
        simp

theorem to_string_small {n : Nat} (h : n < 10) : to_string n = [48 + n] := by
  have h0 : n / 10 = 0 := by omega
  have hm : n % 10 = n := by omega
  simp [to_string, Nat.toDigits, Nat.toDigitsCore, h0, hm, digitChar_toNat h]

theorem to_string_step {n : Nat} (h : 10 ≤ n) :
    to_string n = to_string (n / 10) ++ [48 + n % 10] := by
  have h0 : ¬ n / 10 = 0 := by omega
  have hd : n % 10 < 10 := by omega
  simp only [to_string]
  rw [Nat.toDigits, Nat.toDigitsCore]
  simp only [h0, if_false]
  rw [toDigitsCore_eq (n / 10) n _ (by omega)]
  simp [digitChar_toNat hd]

theorem to_string_ne_nil (n : Nat) : to_string n ≠ [] := by
  by_cases h : n < 10
  · rw [to_string_small h]
    simp
  · rw [to_string_step (by omega)]
    simp

theorem to_string_digits (n : Nat) : ∀ b ∈ to_string n, 48 ≤ b ∧ b ≤ 57 := by
  induction n using Nat.strong_induction_on with
  | _ n ih =>
    intro b hb
    by_cases h : n < 10
    · rw [to_string_small h] at hb
      simp only [List.mem_singleton] at hb
      omega
    · rw [to_string_step (by omega)] at hb
      rcases List.mem_append.mp hb with hb | hb
      · exact ih (n / 10) (by omega) b hb
      · simp only [List.mem_singleton] at hb
        omega

theorem to_string_injective (n : Nat) : ∀ m : Nat, to_string n = to_string m → n = m := by
  induction n using Nat.strong_induction_on with
  | _ n ih =>
    intro m heq
    by_cases hn : n < 10
    · by_cases hm : m < 10
      · rw [to_string_small hn, to_string_small hm] at heq
        simp only [List.cons.injEq, and_true] at heq
        omega
      · have hm2 : 10 ≤ m := by omega
        rw [to_string_small hn, to_string_step hm2] at heq
        have hlen := congrArg List.length heq
        have hpos := List.length_pos.mpr (to_string_ne_nil (m / 10))
        simp only [List.length_singleton, List.length_append] at hlen
        omega
    · have hn2 : 10 ≤ n := by omega
      by_cases hm : m < 10
      · rw [to_string_step hn2, to_string_small hm] at heq
        have hlen := congrArg List.length heq
        have hpos := List.length_pos.mpr (to_string_ne_nil (n / 10))
        simp only [List.length_singleton, List.length_append] at hlen
        omega
      · have hm2 : 10 ≤ m := by omega
        rw [to_string_step hn2, to_string_step hm2] at heq
        obtain ⟨h1, h2⟩ := List.append_inj' heq rfl
        have hq := ih (n / 10) (by omega) (m / 10) h1
        simp only [List.cons.injEq, and_true] at h2
        omega

/-- Two strings that split at a separator absent from their heads agree only
if the heads agree and the tails agree. -/
theorem append_sep_inj {sep : Nat} :
    ∀ (a b r t : List Nat), sep ∉ a → sep ∉ b → a ++ sep :: r = b ++ sep :: t →
      a = b ∧ r = t := by
  intro a
  induction a with
  | nil =>
    intro b r t _ hb h
    cases b with
    | nil =>
      simp only [List.nil_append, List.cons.injEq, true_and] at h
      exact ⟨rfl, h⟩
    | cons y b =>
      simp only [List.nil_append, List.cons_append, List.cons.injEq] at h
      exact absurd (h.1 ▸ List.mem_cons_self _ _) hb
  | cons x a ih =>
    intro b r t ha hb h
    cases b with
    | nil =>
      simp only [List.nil_append, List.cons_append, List.cons.injEq] at h
      exact absurd (h.1 ▸ List.mem_cons_self _ _) ha
    | cons y b =>
      simp only [List.cons_append, List.cons.injEq] at h
      have hrec := ih b r t (fun hm => ha (List.mem_cons_of_mem _ hm))
        (fun hm => hb (List.mem_cons_of_mem _ hm)) h.2
      exact ⟨by rw [h.1, hrec.1], hrec.2⟩

theorem detachedKey_eq (eventName : Option (List Nat)) (contextId : Nat) :
    detachedKey eventName contextId = to_string contextId ++ 58 :: nameOrNull eventName := by
  have hsep : ascii ":" = [58] := by decide
  simp [detachedKey, hsep]

theorem colon_not_mem_to_string (n : Nat) : 58 ∉ to_string n := by
  intro h
  have := to_string_digits n 58 h
  omega

/-! ### Detached correlation key: claim -/

/-- C18: on non-null names the detached key is injective: two keys are equal
exactly when the context ids are equal and the names are equal, whatever
bytes the names hold; and a null name and the name "<null>" give the same key
on the same context id. -/
theorem detachedKey_injective (c₁ c₂ : Nat) (n₁ n₂ : List Nat) :
    (detachedKey (some n₁) c₁ = detachedKey (some n₂) c₂ ↔ c₁ = c₂ ∧ n₁ = n₂) ∧
      detachedKey none c₁ = detachedKey (some (ascii "<null>")) c₁ ∧
      detachedKey (some (ascii "1:a")) 1 ≠ detachedKey (some (ascii "a")) 11 := by
  refine ⟨⟨?_, ?_⟩, rfl, by decide⟩
  · intro h
    rw [detachedKey_eq, detachedKey_eq] at h
    obtain ⟨h1, h2⟩ := append_sep_inj _ _ _ _ (colon_not_mem_to_string c₁)
      (colon_not_mem_to_string c₂) h
    exact ⟨to_string_injective c₁ c₂ h1, h2⟩
  · rintro ⟨rfl, rfl⟩
    rfl

end sapien.physx
